import Mathlib

/-!
Verification development for the DirtJWax rhythm-game core: a shallow
embedding of the chart decoder (`ptfile.py`) and the timeline/judgment
engine (`dwax_game.py`), with theorems settling the specification claims.

Modelling conventions:
* raw file buffers are `List ℕ` of byte values;
* Python floats (tick intervals, milliseconds, tempo) are modelled as `ℚ`
  (the engine's arithmetic is field arithmetic on these values; IEEE-754
  binary32 values read from the file are decoded exactly into `ℚ`);
* Python exceptions raised by `parse` (`AssertionError` on bad magic,
  `TypeError` on an unknown command type, `struct.error` on a truncated
  buffer) are modelled as a single error sum `PTFileFormatError`, the
  spec's "FormatError";
* the external decryption gateway is a `List ℕ → List ℕ` parameter,
  matching the spec's bytes-in/bytes-out contract;
* the external audio library's `Sound.get_length()` (seconds) is a
  `ℕ → ℚ` parameter keyed by sound index.
-/

/-! ## Chart decoder data model (ptfile.py) -/

/-- `PTFileCommandType`: GENERAL = 1, VOLUME = 2, BPM = 3, BEAT = 4. -/
inductive PTFileCommandType
  | GENERAL
  | VOLUME
  | BPM
  | BEAT
deriving DecidableEq, Repr

/-- The tagged note-parameter variants (`PTFileGeneralNoteParams`,
`PTFileVolumeNoteParams`, `PTFileBPMChangeNoteParams`,
`PTFileBeatNoteParams`), modelled as one sum type. -/
inductive PTFileNoteParams
  | general (sound_index : ℕ) (volume : ℕ) (pan : ℕ) (attrib : ℕ) (duration : ℕ)
  | volume (volume : ℕ)
  | bpm (tempo : ℚ)
  | beat (beat : ℕ)
deriving DecidableEq, Repr

/-- `duration` of GENERAL params; other variants have no such attribute in
Python (reading it would raise), 0 is a formal placeholder never reached by
an is-general guard. -/
def PTFileNoteParams.durationOf : PTFileNoteParams → ℕ
  | .general _ _ _ _ d => d
  | _ => 0

/-- `tempo` of BPM params; placeholder 0 for the other variants. -/
def PTFileNoteParams.tempoOf : PTFileNoteParams → ℚ
  | .bpm t => t
  | _ => 0

/-- `sound_index` of GENERAL params; placeholder 0 for the other variants. -/
def PTFileNoteParams.soundIndexOf : PTFileNoteParams → ℕ
  | .general si _ _ _ _ => si
  | _ => 0

/-- `PTFileNote`: position plus command type plus params. -/
structure PTFileNote where
  position : ℕ
  command_type : PTFileCommandType
  params : PTFileNoteParams
deriving DecidableEq, Repr

/-- `PTFileNote.is_general`. -/
def PTFileNote.is_general (n : PTFileNote) : Bool :=
  n.command_type = PTFileCommandType.GENERAL

/-- `PTFileHeader`. Filename-free numeric header fields; the two f32
fields (`master_bpm`, `time_in_seconds`) are decoded exactly into `ℚ`. -/
structure PTFileHeader where
  version_major : ℕ
  version_minor : ℕ
  ticks_per_measure : ℕ
  master_bpm : ℚ
  number_of_tracks : ℕ
  total_ticks : ℕ
  time_in_seconds : ℚ
  number_of_sounds : ℕ
deriving DecidableEq, Repr

/-- `PTFileSound`: the filename is kept as its raw bytes (the prefix before
the first NUL byte). -/
structure PTFileSound where
  index : ℕ
  command : ℕ
  filename : List ℕ
deriving DecidableEq, Repr

/-- `PTFileTrack`: the name is kept as its raw bytes (prefix before NUL). -/
structure PTFileTrack where
  name : List ℕ
  ticks : ℕ
  notes : List PTFileNote
deriving DecidableEq, Repr

/-- `PTFile`: the decoded Chart. -/
structure PTFile where
  header : PTFileHeader
  sounds : List PTFileSound
  tracks : List PTFileTrack
deriving DecidableEq, Repr

/-- The single error sum for everything `PTFile.parse` can raise: bad
header magic (`assert ptff == b"PTFF"`), bad track magic
(`assert eztr == b"EZTR"`), an unsupported note command type
(`raise TypeError`), and a too-short buffer (`struct.error`). -/
inductive PTFileFormatError
  | truncated
  | bad_header_magic
  | bad_track_magic
  | unsupported_command_type
deriving DecidableEq, Repr

/-! ## Byte readers (struct.unpack_from on a bytes buffer) -/

/-- Read one byte at `off`; `none` when out of range (`struct.error`). -/
def readByte (buf : List ℕ) (off : ℕ) : Option ℕ :=
  if off < buf.length then some (buf.getD off 0) else none

/-- Read `n` raw bytes at `off`. -/
def readBytesList (buf : List ℕ) (off n : ℕ) : Option (List ℕ) :=
  if off + n ≤ buf.length then some ((buf.drop off).take n) else none

/-- Little-endian u16 at `off` (struct format "<H"). -/
def readU16 (buf : List ℕ) (off : ℕ) : Option ℕ :=
  match readByte buf off, readByte buf (off + 1) with
  | some a, some b => some (a + 256 * b)
  | _, _ => none

/-- Little-endian u32 at `off` (struct format "<I"). -/
def readU32 (buf : List ℕ) (off : ℕ) : Option ℕ :=
  match readByte buf off, readByte buf (off + 1),
        readByte buf (off + 2), readByte buf (off + 3) with
  | some a, some b, some c, some d =>
      some (a + 256 * b + 65536 * c + 16777216 * d)
  | _, _, _, _ => none

/-- Exact value of an IEEE-754 binary32 bit pattern as a rational.
Infinities and NaNs (exponent 255) have no rational value and are mapped
to 0; chart files carry only finite tempo/time values. -/
def decodeF32 (bits : ℕ) : ℚ :=
  let s : ℕ := bits / 2 ^ 31 % 2
  let e : ℕ := bits / 2 ^ 23 % 2 ^ 8
  let m : ℕ := bits % 2 ^ 23
  let sign : ℚ := if s = 1 then -1 else 1
  if e = 0 then
    sign * ((m : ℚ) / 2 ^ 23) * (2 : ℚ) ^ (-126 : ℤ)
  else if e = 255 then
    0
  else
    sign * (1 + (m : ℚ) / 2 ^ 23) * (2 : ℚ) ^ ((e : ℤ) - 127)

/-- Little-endian f32 at `off` (struct format "<f"), decoded exactly. -/
def readF32 (buf : List ℕ) (off : ℕ) : Option ℚ :=
  (readU32 buf off).map decodeF32

/-- Lift an optional read into the parse monad: a failed read is a
truncated buffer (`struct.error`). -/
def need {α : Type} (o : Option α) : Except PTFileFormatError α :=
  match o with
  | some a => Except.ok a
  | none => Except.error PTFileFormatError.truncated

/-- The 4 magic bytes "PTFF". -/
def ptffMagic : List ℕ := [80, 84, 70, 70]

/-- The 4 magic bytes "EZTR". -/
def eztrMagic : List ℕ := [69, 90, 84, 82]

/-! ## Parsing (PTFile.parse) -/

/-- Parse one 16-byte note record (struct "<IBxxx8s", then the 8-byte
params blob per command type: GENERAL "<HBBBHx", VOLUME "<Bxxxxxxx",
BPM "<fxxxx", BEAT "<Hxxxxxx"). -/
def parseNote (buf : List ℕ) (off : ℕ) : Except PTFileFormatError PTFileNote := do
  let position ← need (readU32 buf off)
  let command_type ← need (readByte buf (off + 4))
  let blob ← need (readBytesList buf (off + 8) 8)
  if command_type = 1 then
    let sound_index ← need (readU16 blob 0)
    let volume ← need (readByte blob 2)
    let pan ← need (readByte blob 3)
    let attrib ← need (readByte blob 4)
    let duration ← need (readU16 blob 5)
    return { position := position, command_type := PTFileCommandType.GENERAL,
             params := PTFileNoteParams.general sound_index volume pan attrib duration }
  else if command_type = 2 then
    let volume ← need (readByte blob 0)
    return { position := position, command_type := PTFileCommandType.VOLUME,
             params := PTFileNoteParams.volume volume }
  else if command_type = 3 then
    let tempo ← need (readF32 blob 0)
    return { position := position, command_type := PTFileCommandType.BPM,
             params := PTFileNoteParams.bpm tempo }
  else if command_type = 4 then
    let beat ← need (readU16 blob 0)
    return { position := position, command_type := PTFileCommandType.BEAT,
             params := PTFileNoteParams.beat beat }
  else
    Except.error PTFileFormatError.unsupported_command_type

/-- Parse `count` consecutive 16-byte note records starting at `off`. -/
def parseNotes (buf : List ℕ) (off : ℕ) :
    (count : ℕ) → Except PTFileFormatError (List PTFileNote × ℕ)
  | 0 => Except.ok ([], off)
  | count + 1 => do
      let note ← parseNote buf off
      let (rest, off') ← parseNotes buf (off + 16) count
      return (note :: rest, off')

/-- Parse one track record (struct "<4sxx64sIIxx", 80 bytes), then its
`size_of_data / 16` note records. -/
def parseTrack (buf : List ℕ) (off : ℕ) :
    Except PTFileFormatError (PTFileTrack × ℕ) := do
  let eztr ← need (readBytesList buf off 4)
  let nameBytes ← need (readBytesList buf (off + 6) 64)
  let ticks ← need (readU32 buf (off + 70))
  let size_of_data ← need (readU32 buf (off + 74))
  if eztr ≠ eztrMagic then
    Except.error PTFileFormatError.bad_track_magic
  else
    let track_name := nameBytes.takeWhile (fun b => b ≠ 0)
    let number_of_notes := size_of_data / 16
    let (notes, off') ← parseNotes buf (off + 80) number_of_notes
    return ({ name := track_name, ticks := ticks, notes := notes }, off')

/-- Parse `count` consecutive track records starting at `off`. -/
def parseTracks (buf : List ℕ) (off : ℕ) :
    (count : ℕ) → Except PTFileFormatError (List PTFileTrack × ℕ)
  | 0 => Except.ok ([], off)
  | count + 1 => do
      let (track, off') ← parseTrack buf off
      let (rest, off'') ← parseTracks buf off' count
      return (track :: rest, off'')

/-- Parse `count` consecutive 68-byte sound records (struct "<HH64s")
starting at `off`. -/
def parseSounds (buf : List ℕ) (off : ℕ) :
    (count : ℕ) → Except PTFileFormatError (List PTFileSound × ℕ)
  | 0 => Except.ok ([], off)
  | count + 1 => do
      let index ← need (readU16 buf off)
      let command ← need (readU16 buf (off + 2))
      let filenameBytes ← need (readBytesList buf (off + 4) 64)
      let filename := filenameBytes.takeWhile (fun b => b ≠ 0)
      let (rest, off') ← parseSounds buf (off + 68) count
      return ({ index := index, command := command, filename := filename } :: rest, off')

/-- Structural parsing of an (already decrypted) buffer: the 24-byte
header (struct "<4sBBHfHIfH", magic asserted after the unpack), the sound
table, then the tracks. -/
def parseStructural (buf : List ℕ) : Except PTFileFormatError PTFile := do
  let ptff ← need (readBytesList buf 0 4)
  let version_major ← need (readByte buf 4)
  let version_minor ← need (readByte buf 5)
  let ticks_per_measure ← need (readU16 buf 6)
  let master_bpm ← need (readF32 buf 8)
  let number_of_tracks ← need (readU16 buf 12)
  let total_ticks ← need (readU32 buf 14)
  let time_in_seconds ← need (readF32 buf 18)
  let number_of_sounds ← need (readU16 buf 22)
  if ptff ≠ ptffMagic then
    Except.error PTFileFormatError.bad_header_magic
  else
    let (sounds, off) ← parseSounds buf 24 number_of_sounds
    let (tracks, _) ← parseTracks buf off number_of_tracks
    return { header := { version_major := version_major,
                         version_minor := version_minor,
                         ticks_per_measure := ticks_per_measure,
                         master_bpm := master_bpm,
                         number_of_tracks := number_of_tracks,
                         total_ticks := total_ticks,
                         time_in_seconds := time_in_seconds,
                         number_of_sounds := number_of_sounds },
             sounds := sounds,
             tracks := tracks }

/-- `is_encrypted`: the little-endian u16 at byte offset 0x18 of the raw
buffer, compared against 1; `none` when the buffer is too short for the
read (`struct.error`). -/
def PTFile.is_encrypted (buf : List ℕ) : Option Bool :=
  (readU16 buf 0x18).map (fun first_song_index => first_song_index ≠ 1)

/-- `PTFile.parse`, parameterized by the decryption gateway
(`decrypt_buffer`, a whole-buffer bytes-to-bytes exchange): if the raw
buffer is considered obfuscated it is exchanged before any structural
parsing, otherwise it is parsed as-is. -/
def PTFile.parse (decrypt_buffer : List ℕ → List ℕ) (buf : List ℕ) :
    Except PTFileFormatError PTFile :=
  match PTFile.is_encrypted buf with
  | none => Except.error PTFileFormatError.truncated
  | some true => parseStructural (decrypt_buffer buf)
  | some false => parseStructural buf

/-! ## Judgment engine data model (dwax_game.py) -/

/-- `GameTrackType` (IntEnum). -/
inductive GameTrackType
  | NONE
  | CMD
  | FG1
  | FG2
  | MR
  | BG
deriving DecidableEq, Repr

/-- `GameTrackType.get_track_type(track_index)`. -/
def GameTrackType.get_track_type (track_index : ℕ) : GameTrackType :=
  if track_index < 2 then GameTrackType.CMD
  else if track_index < 12 then GameTrackType.FG1
  else if track_index < 22 then GameTrackType.FG2
  else if track_index < 23 then GameTrackType.MR
  else GameTrackType.BG

/-- `GameButtonActionType` (IntEnum KEYDOWN = 1, KEYUP = 2). -/
inductive GameButtonActionType
  | KEYDOWN
  | KEYUP
deriving DecidableEq, Repr

/-- `GameNotePlayResultType` (IntEnum MAX100 = 100, MAX90 = 90, MAX1 = 1,
BREAK = 0). -/
inductive GameNotePlayResultType
  | MAX100
  | MAX90
  | MAX1
  | BREAK
deriving DecidableEq, Repr

/-- The IntEnum value of a `GameNotePlayResultType`. -/
def GameNotePlayResultType.value : GameNotePlayResultType → ℕ
  | .MAX100 => 100
  | .MAX90 => 90
  | .MAX1 => 1
  | .BREAK => 0

/-- `GameNotePlayResultFailReason` (IntEnum). -/
inductive GameNotePlayResultFailReason
  | TOO_LATE_TO_START
  | TOO_LATE_TO_FINISH
  | TOO_EARLY_TO_FINISH
deriving DecidableEq, Repr

/-- `GameNotePlayResult`: all three Python constructor arguments are
optional (`result_type` itself can be `None`, see `GameNote.start_play`
with no grade branch fired). -/
structure GameNotePlayResult where
  result_type : Option GameNotePlayResultType
  timing_diff : Option ℚ
  reason : Option GameNotePlayResultFailReason
deriving DecidableEq, Repr

/-- Runtime state of one `GameNote`: the wrapped parsed note plus the
mutable judgment fields.  `played_millis_per_tick` is the timeline table
shared with the sequence player; `unit_judge_millis` defaults to 42. -/
structure GameNote where
  note : PTFileNote
  played_millis_per_tick : List ℚ
  unit_judge_millis : ℚ
  is_playing : Bool
  is_played : Bool
  result_type : Option GameNotePlayResultType
  play_result : Option GameNotePlayResult
deriving DecidableEq, Repr

namespace GameNote

/-- `GameNote._is_general` (computed in `__init__`). -/
def is_general (n : GameNote) : Bool :=
  n.note.is_general

/-- `GameNote._is_bpm_change`. -/
def is_bpm_change (n : GameNote) : Bool :=
  n.note.command_type = PTFileCommandType.BPM

/-- `GameNote._is_long` = is_general and duration > 6 (the Python `and`
short-circuits, so `params.duration` is only read on GENERAL notes). -/
def is_long (n : GameNote) : Bool :=
  n.is_general && decide (6 < n.note.params.durationOf)

/-- `GameNote._is_short` = not `_is_long`. -/
def is_short (n : GameNote) : Bool :=
  !n.is_long

/-- `GameNote.get_position`. -/
def get_position (n : GameNote) : ℕ :=
  n.note.position

/-- `GameNote.get_duration`. -/
def get_duration (n : GameNote) : ℕ :=
  n.note.params.durationOf

/-- `GameNote.get_end_position`. -/
def get_end_position (n : GameNote) : ℕ :=
  n.get_position + n.get_duration

/-- `GameNote.get_position_millis`: a lookup into the timeline table.
Python indexes the list directly (out of range would raise IndexError);
the formal default 0 is never reached for positions inside the chart. -/
def get_position_millis (n : GameNote) : ℚ :=
  n.played_millis_per_tick.getD n.get_position 0

/-- `GameNote.get_end_position_millis`. -/
def get_end_position_millis (n : GameNote) : ℚ :=
  n.played_millis_per_tick.getD n.get_end_position 0

/-- `GameNote.is_playable` = general and not (played or playing). -/
def is_playable (n : GameNote) : Bool :=
  n.is_general && !(n.is_played || n.is_playing)

/-- `GameNote.start_play(current_millis)`: returns the updated note state
and the Python return value.  The too-early branch is a bare `return`
(value `None`, no state change).  Note that when no grade branch fires
(`|diff| ≥ 3 × unit` but not too early), `_result_type` keeps its previous
value, and a short note is still marked played. -/
def start_play (n : GameNote) (current_millis : ℚ) :
    GameNote × Option GameNotePlayResult :=
  let diff_millis := n.get_position_millis - current_millis
  if diff_millis > 3 * n.unit_judge_millis then
    (n, none)
  else
    let abs_diff_millis := |diff_millis|
    let result_type :=
      if abs_diff_millis < n.unit_judge_millis then
        some GameNotePlayResultType.MAX100
      else if abs_diff_millis < 2 * n.unit_judge_millis then
        some GameNotePlayResultType.MAX90
      else if abs_diff_millis < 3 * n.unit_judge_millis then
        some GameNotePlayResultType.MAX1
      else
        n.result_type
    if n.is_short then
      let play_result : GameNotePlayResult :=
        { result_type := result_type,
          timing_diff := some (current_millis - n.get_position_millis),
          reason := none }
      ({ n with is_played := true, result_type := result_type,
                play_result := some play_result },
       some play_result)
    else if n.is_long then
      ({ n with is_playing := true, result_type := result_type },
       n.play_result)
    else
      ({ n with result_type := result_type }, n.play_result)

/-- `GameNote.is_too_early_to_finish(current_millis)`. -/
def is_too_early_to_finish (n : GameNote) (current_millis : ℚ) : Bool :=
  n.get_end_position_millis - current_millis > 3 * n.unit_judge_millis

/-- `GameNote.is_too_late_to_start(current_millis)`. -/
def is_too_late_to_start (n : GameNote) (current_millis : ℚ) : Bool :=
  !n.is_playing && (current_millis - n.get_position_millis > 3 * n.unit_judge_millis)

/-- `GameNote.is_too_late_to_finish(current_millis)`. -/
def is_too_late_to_finish (n : GameNote) (current_millis : ℚ) : Bool :=
  current_millis - n.get_end_position_millis > 3 * n.unit_judge_millis

/-- `GameNote.should_fail_to_play(current_millis)`. -/
def should_fail_to_play (n : GameNote) (current_millis : ℚ) : Bool :=
  n.is_too_late_to_start current_millis ||
    (n.is_playing && n.is_too_late_to_finish current_millis)

/-- `GameNote.finish_play(current_millis)`: returns the updated state and
the Python return value (`self._play_result`). -/
def finish_play (n : GameNote) (current_millis : ℚ) :
    GameNote × Option GameNotePlayResult :=
  if n.is_long && n.is_playing then
    let n' := { n with is_played := true, is_playing := false }
    if n.is_too_early_to_finish current_millis then
      let play_result : GameNotePlayResult :=
        { result_type := some GameNotePlayResultType.BREAK,
          timing_diff := some (current_millis - n.get_end_position_millis),
          reason := some GameNotePlayResultFailReason.TOO_EARLY_TO_FINISH }
      ({ n' with result_type := some GameNotePlayResultType.BREAK,
                 play_result := some play_result },
       some play_result)
    else
      let play_result : GameNotePlayResult :=
        { result_type := n.result_type,
          timing_diff := some (current_millis - n.get_end_position_millis),
          reason := none }
      ({ n' with play_result := some play_result }, some play_result)
  else
    (n, n.play_result)

/-- `GameNote.fail(current_millis)`: stores and returns the auto-fail
result.  When neither branch fires (never the case under
`should_fail_to_play`) the stale `_play_result` is returned. -/
def fail (n : GameNote) (current_millis : ℚ) :
    GameNote × Option GameNotePlayResult :=
  if n.is_too_late_to_start current_millis then
    let play_result : GameNotePlayResult :=
      { result_type := some GameNotePlayResultType.BREAK,
        timing_diff := some (current_millis - n.get_position_millis),
        reason := some GameNotePlayResultFailReason.TOO_LATE_TO_START }
    ({ n with play_result := some play_result }, some play_result)
  else if n.is_too_late_to_finish current_millis then
    let play_result : GameNotePlayResult :=
      { result_type := some GameNotePlayResultType.MAX1,
        timing_diff := some (current_millis - n.get_end_position_millis),
        reason := some GameNotePlayResultFailReason.TOO_LATE_TO_FINISH }
    ({ n with play_result := some play_result }, some play_result)
  else
    (n, n.play_result)

end GameNote

/-! ## Track-level judgment cursor (GameTrack) -/

/-- The judgment-relevant runtime state of a `GameTrack`: its notes, the
judgment cursor `_current_play_index`, and the key-held flag
`_is_playing`. -/
structure GameTrack where
  notes : List GameNote
  current_play_index : ℕ
  is_playing : Bool
deriving DecidableEq, Repr

namespace GameTrack

/-- `GameTrack.find_note_index(predicate, start_index)` with the default
`default = notes_len`: the first index `i ≥ start` with
`predicate notes[i]`, or `notes.length` when there is none. -/
def find_note_index_from (notes : List GameNote) (p : GameNote → Bool)
    (start : ℕ) : ℕ :=
  if h : start < notes.length then
    if p (notes.get ⟨start, h⟩) then start
    else find_note_index_from notes p (start + 1)
  else notes.length
termination_by notes.length - start

/-- `GameTrack.set_play_index(play_index)`: snaps the judgment cursor to
the next playable note at or after `play_index`. -/
def set_play_index (t : GameTrack) (play_index : ℕ) : GameTrack :=
  { t with current_play_index :=
      find_note_index_from t.notes GameNote.is_playable play_index }

/-- `GameTrack.increment_play_index`. -/
def increment_play_index (t : GameTrack) : GameTrack :=
  t.set_play_index (t.current_play_index + 1)

/-- `GameTrack.get_play_head_note` (None when the cursor is past the
end). -/
def get_play_head_note (t : GameTrack) : Option GameNote :=
  t.notes.get? t.current_play_index

/-- `GameTrack.start_play(current_millis)`: key-down on the track.  The
sound side effect of `note.process()` does not touch the judgment state
and is not modelled. -/
def start_play (t : GameTrack) (current_millis : ℚ) :
    GameTrack × Option GameNotePlayResult :=
  if t.is_playing then (t, none)
  else
    let t := { t with is_playing := true }
    match t.notes.get? t.current_play_index with
    | none => (t, none)
    | some note =>
        let (note', play_result) := note.start_play current_millis
        let t' := { t with notes := t.notes.set t.current_play_index note' }
        let t'' := if note'.is_played then t'.increment_play_index else t'
        (t'', play_result)

/-- `GameTrack.finish_play(current_millis)`: key-up on the track. -/
def finish_play (t : GameTrack) (current_millis : ℚ) :
    GameTrack × Option GameNotePlayResult :=
  if !t.is_playing then (t, none)
  else
    let t := { t with is_playing := false }
    match t.notes.get? t.current_play_index with
    | none => (t, none)
    | some note =>
        let (note', play_result) := note.finish_play current_millis
        let t' := { t with notes := t.notes.set t.current_play_index note' }
        let t'' := if note'.is_played then t'.increment_play_index else t'
        (t'', play_result)

end GameTrack

/-! ## Score aggregator (GamePatternPlayer) -/

/-- The score-aggregation state of `GamePatternPlayer`:
`_play_result_count`, `_combo_count`, `_average_accuracy`, and the
per-grade counter dict `_result_type_counts` (modelled as a total
function; the dict is initialized with all four grades present and
updated with `.get(type, 0) + 1`). -/
structure ScoreState where
  play_result_count : ℕ
  combo_count : ℕ
  average_accuracy : ℚ
  result_type_counts : GameNotePlayResultType → ℕ

/-- `GamePatternPlayer.on_play_result(play_result)`.  The Python method
receives the `GameNotePlayResult` object and reads only its
`result_type`, which its callers have already guarded to be non-None;
the model therefore takes the grade directly. -/
def on_play_result (s : ScoreState) (result_type : GameNotePlayResultType) :
    ScoreState :=
  let play_result_count := s.play_result_count + 1
  { play_result_count := play_result_count,
    average_accuracy :=
      s.average_accuracy * ((play_result_count : ℚ) - 1) / play_result_count
        + (result_type.value : ℚ) / play_result_count,
    combo_count :=
      if result_type = GameNotePlayResultType.BREAK then 0
      else s.combo_count + 1,
    result_type_counts := fun t =>
      if t = result_type then s.result_type_counts t + 1
      else s.result_type_counts t }

/-- The reporting guard shared by `GamePatternPlayer.play_button` and the
auto-fail sweep in `GameSequencePlayer.on_tick`:
`if play_result is not None and play_result.result_type is not None:
on_play_result(play_result)`. -/
def apply_play_result (s : ScoreState) (r : Option GameNotePlayResult) :
    ScoreState :=
  match r with
  | some play_result =>
      match play_result.result_type with
      | some result_type => on_play_result s result_type
      | none => s
  | none => s

/-- `GamePatternPlayer.play_button(button, action_type)` restricted to one
mapped track: dispatches key-down/key-up to the track and feeds the
result through the reporting guard. -/
def play_button (t : GameTrack) (s : ScoreState)
    (action_type : GameButtonActionType) (current_millis : ℚ) :
    GameTrack × ScoreState :=
  let (t', play_result) :=
    match action_type with
    | GameButtonActionType.KEYDOWN => t.start_play current_millis
    | GameButtonActionType.KEYUP => t.finish_play current_millis
  (t', apply_play_result s play_result)

/-! ## Auto-fail sweep (GameSequencePlayer.on_tick, judgment cursors) -/

/-- The forward-only cursor property: `find_note_index` never goes
backwards from a start index that is within bounds. -/
theorem GameTrack.le_find_note_index_from (notes : List GameNote)
    (p : GameNote → Bool) (start : ℕ) (h : start ≤ notes.length) :
    start ≤ GameTrack.find_note_index_from notes p start := by
  unfold GameTrack.find_note_index_from
  split
  · split
    · exact le_refl _
    · have := GameTrack.le_find_note_index_from notes p (start + 1) (by omega)
      omega
  · omega
termination_by notes.length - start

/-- Advancing the judgment cursor from a failed head note strictly
shrinks the remaining-notes measure. -/
theorem GameTrack.sweep_measure_lt (notes notes' : List GameNote)
    (p : GameNote → Bool) (idx : ℕ) (hlen : notes'.length = notes.length)
    (h : idx < notes.length) :
    notes'.length - GameTrack.find_note_index_from notes' p (idx + 1) <
      notes.length - idx := by
  have := GameTrack.le_find_note_index_from notes' p (idx + 1) (by omega)
  omega

/-- One playable track's auto-fail sweep from `on_tick`:
`while note and note.should_fail_to_play(elapsed)` — outside auto-play,
fail the head note, report its result through the guard, and advance the
judgment cursor; in auto-play only the cursor advances.  Returns the
final track state and the play results reported to the pattern player,
in order. -/
def auto_fail_sweep (elapsed_millis : ℚ) (is_auto_play : Bool)
    (t : GameTrack) : GameTrack × List GameNotePlayResult :=
  if h : t.current_play_index < t.notes.length then
    let note := t.notes.get ⟨t.current_play_index, h⟩
    if note.should_fail_to_play elapsed_millis then
      if is_auto_play then
        let t' := t.increment_play_index
        auto_fail_sweep elapsed_millis is_auto_play t'
      else
        let (note', play_result) := note.fail elapsed_millis
        let reported :=
          match play_result with
          | some r => if r.result_type.isSome then [r] else []
          | none => []
        let t' := GameTrack.increment_play_index
          { t with notes := t.notes.set t.current_play_index note' }
        let (t'', rest) := auto_fail_sweep elapsed_millis is_auto_play t'
        (t'', reported ++ rest)
    else (t, [])
  else (t, [])
termination_by t.notes.length - t.current_play_index
decreasing_by
  all_goals
    simp only [GameTrack.increment_play_index, GameTrack.set_play_index]
    exact GameTrack.sweep_measure_lt _ _ _ _ (by simp) h

/-! ## Frame-tick advancement (GameSequencePlayer.on_tick, clock part) -/

/-- Python `int()` applied to a rational: truncation toward zero. -/
def pythonInt (q : ℚ) : ℤ :=
  if 0 ≤ q then ⌊q⌋ else ⌈q⌉

/-- The clock fragment of `GameSequencePlayer.on_tick`: from the sampled
`current_millis` and the running `started_millis` / `played_millis` /
`tick_interval_millis`, compute the elapsed and incremental milliseconds
and advance `current_tick` / `played_millis` when at least one whole tick
fits.  Returns (current_tick, played_millis, elapsed_millis). -/
def advance_ticks (current_millis started_millis played_millis
    tick_interval_millis : ℚ) (current_tick : ℤ) : ℤ × ℚ × ℚ :=
  let elapsed_millis := current_millis - started_millis
  let incremental_millis := elapsed_millis - played_millis
  let incremental_ticks : ℤ :=
    if tick_interval_millis > 0 then
      pythonInt (incremental_millis / tick_interval_millis)
    else 0
  if incremental_ticks > 0 then
    (current_tick + incremental_ticks,
     played_millis + tick_interval_millis * incremental_ticks,
     elapsed_millis)
  else
    (current_tick, played_millis, elapsed_millis)

/-! ## Channel allocator (GameSequencePlayer.open_ptfile, channel part) -/

/-- The per-track channel count from `open_ptfile`:
`0 if not has_any_general_note else 2 if has_any_overlap or track_type in
[FG1] else 1`. -/
def number_of_channels (has_any_general_note has_any_overlap : Bool)
    (track_type : GameTrackType) : ℕ :=
  if !has_any_general_note then 0
  else if has_any_overlap || track_type = GameTrackType.FG1 then 2
  else 1

/-- `partition_list_by_size` from `open_ptfile`: carve `lst` into
consecutive slices `lst[start:end]` whose sizes are given in order. -/
def partition_list_by_size {α : Type} (lst : List α) : List ℕ → ℕ → List (List α)
  | [], _ => []
  | size :: sizes, endAcc =>
      ((lst.drop endAcc).take size) :: partition_list_by_size lst sizes (endAcc + size)

/-! ## Timeline builder (GameSequencePlayer.open_ptfile, sweep part) -/

/-- Per-track scan state of the timeline sweep: the monotone
"has overlap" flag (the Python dict only ever receives `True`) and the
last GENERAL note seen (`last_general_note_per_track`). -/
structure TrackScan where
  has_any_overlap : Bool
  last_general_note : Option PTFileNote
deriving DecidableEq, Repr

/-- One track of the sweep: its remaining (uncursored) notes plus its
scan state. -/
structure TimelineTrack where
  notes : List PTFileNote
  scan : TrackScan
deriving DecidableEq, Repr

/-- Whole sweep state: the per-track cursors, the running tempo /
cumulative played milliseconds / tick interval, and the three per-tick
arrays built so far. -/
structure TimelineState where
  tracks : List TimelineTrack
  tempo : ℚ
  played_millis : ℚ
  tick_interval_millis : ℚ
  tempos_per_tick : List ℚ
  played_millis_per_tick : List ℚ
  tick_interval_millis_per_tick : List ℚ
deriving DecidableEq, Repr

/-- The inner `while note and note.get_position() <= cursor_tick` loop of
the sweep, for one track: drains due notes in order.  GENERAL notes feed
the overlap detector (comparing the previous GENERAL note's start millis,
looked up in the array built so far, plus its sound's playback duration
against the running played milliseconds); BPM notes update the tempo and
the tick interval (`240000 / ticks_per_measure / tempo`).
`sound_length` is the external audio library's per-sound length in
seconds (`Sound.get_length()`), keyed by sound index. -/
def drain_track_at_tick (ticks_per_measure : ℕ) (sound_length : ℕ → ℚ)
    (cursor_tick : ℕ) (played_arr : List ℚ) (played_millis : ℚ) :
    List PTFileNote → TrackScan → ℚ → ℚ →
      List PTFileNote × TrackScan × ℚ × ℚ
  | [], scan, tempo, tick_interval_millis =>
      ([], scan, tempo, tick_interval_millis)
  | note :: rest, scan, tempo, tick_interval_millis =>
      if note.position ≤ cursor_tick then
        let scan :=
          if note.is_general then
            let has_any_overlap :=
              if !scan.has_any_overlap then
                match scan.last_general_note with
                | some prev_note =>
                    if played_arr.getD prev_note.position 0
                        + sound_length prev_note.params.soundIndexOf * 1000
                        > played_millis then
                      true
                    else scan.has_any_overlap
                | none => scan.has_any_overlap
              else scan.has_any_overlap
            { has_any_overlap := has_any_overlap,
              last_general_note := some note }
          else scan
        let (tempo, tick_interval_millis) :=
          if note.command_type = PTFileCommandType.BPM then
            let tempo := note.params.tempoOf
            (tempo, 240000 / (ticks_per_measure : ℚ) / tempo)
          else (tempo, tick_interval_millis)
        drain_track_at_tick ticks_per_measure sound_length cursor_tick
          played_arr played_millis rest scan tempo tick_interval_millis
      else (note :: rest, scan, tempo, tick_interval_millis)

/-- The per-tick loop body over all tracks, in track-iteration order. -/
def drain_tracks_at_tick (ticks_per_measure : ℕ) (sound_length : ℕ → ℚ)
    (cursor_tick : ℕ) (played_arr : List ℚ) (played_millis : ℚ) :
    List TimelineTrack → ℚ → ℚ → List TimelineTrack × ℚ × ℚ
  | [], tempo, tick_interval_millis => ([], tempo, tick_interval_millis)
  | track :: restTracks, tempo, tick_interval_millis =>
      let (notes, scan, tempo, tick_interval_millis) :=
        drain_track_at_tick ticks_per_measure sound_length cursor_tick
          played_arr played_millis track.notes track.scan tempo
          tick_interval_millis
      let (restTracks', tempo, tick_interval_millis) :=
        drain_tracks_at_tick ticks_per_measure sound_length cursor_tick
          played_arr played_millis restTracks tempo tick_interval_millis
      ({ notes := notes, scan := scan } :: restTracks', tempo,
       tick_interval_millis)

/-- One iteration of `for cursor_tick in range(self._total_ticks)`: first
add the previous tick's interval to the cumulative played milliseconds,
then drain every track's processing cursor, then append to the three
per-tick arrays. -/
def timeline_tick_step (ticks_per_measure : ℕ) (sound_length : ℕ → ℚ)
    (st : TimelineState) (cursor_tick : ℕ) : TimelineState :=
  let played_millis := st.played_millis + st.tick_interval_millis
  let (tracks, tempo, tick_interval_millis) :=
    drain_tracks_at_tick ticks_per_measure sound_length cursor_tick
      st.played_millis_per_tick played_millis st.tracks st.tempo
      st.tick_interval_millis
  { tracks := tracks,
    tempo := tempo,
    played_millis := played_millis,
    tick_interval_millis := tick_interval_millis,
    tempos_per_tick := st.tempos_per_tick ++ [tempo],
    played_millis_per_tick := st.played_millis_per_tick ++ [played_millis],
    tick_interval_millis_per_tick :=
      st.tick_interval_millis_per_tick ++ [tick_interval_millis] }

/-- The initial sweep state: `tempo = 0`, `played_millis = 0`,
`tick_interval_millis = 0`, empty arrays, fresh per-track cursors. -/
def timeline_init (tracks : List (List PTFileNote)) : TimelineState :=
  { tracks := tracks.map fun notes =>
      { notes := notes,
        scan := { has_any_overlap := false, last_general_note := none } },
    tempo := 0,
    played_millis := 0,
    tick_interval_millis := 0,
    tempos_per_tick := [],
    played_millis_per_tick := [],
    tick_interval_millis_per_tick := [] }

/-- The full timeline build of `open_ptfile`: the forward sweep over
ticks `0 .. total_ticks - 1` on the effective tracks' note lists. -/
def build_timeline (ticks_per_measure : ℕ) (sound_length : ℕ → ℚ)
    (total_ticks : ℕ) (tracks : List (List PTFileNote)) : TimelineState :=
  (List.range total_ticks).foldl
    (timeline_tick_step ticks_per_measure sound_length)
    (timeline_init tracks)

/-! ## Claim theorems -/

/-- C1: For every GENERAL note and key-down time, `start_play` with
`diff = notePositionMillis - currentMillis` ignores the press with no
state change when `diff > 3 × unitJudgeMillis`; otherwise it grades
MAX100 for `|diff| < unit`, MAX90 for `unit ≤ |diff| < 2 × unit`, MAX1
for `2 × unit ≤ |diff| < 3 × unit`; a short note (duration ≤ 6)
immediately becomes Played with that grade and
`timing_diff = currentMillis - notePositionMillis`, while a long note
(duration > 6) becomes Playing and remembers the grade. -/
theorem C1_start_play_judgment (n : GameNote) (current_millis : ℚ)
    (hgen : n.is_general = true) :
    (n.get_position_millis - current_millis > 3 * n.unit_judge_millis →
      n.start_play current_millis = (n, none)) ∧
    ((n.is_short = true) ↔ n.get_duration ≤ 6) ∧
    ((n.is_long = true) ↔ 6 < n.get_duration) ∧
    (n.get_position_millis - current_millis ≤ 3 * n.unit_judge_millis →
      (|n.get_position_millis - current_millis| < n.unit_judge_millis →
        (n.start_play current_millis).1.result_type =
          some GameNotePlayResultType.MAX100) ∧
      (n.unit_judge_millis ≤ |n.get_position_millis - current_millis| →
        |n.get_position_millis - current_millis| < 2 * n.unit_judge_millis →
        (n.start_play current_millis).1.result_type =
          some GameNotePlayResultType.MAX90) ∧
      (2 * n.unit_judge_millis ≤ |n.get_position_millis - current_millis| →
        |n.get_position_millis - current_millis| < 3 * n.unit_judge_millis →
        (n.start_play current_millis).1.result_type =
          some GameNotePlayResultType.MAX1) ∧
      (n.is_short = true →
        (n.start_play current_millis).1.is_played = true ∧
        (n.start_play current_millis).2 =
          some { result_type := (n.start_play current_millis).1.result_type,
                 timing_diff :=
                   some (current_millis - n.get_position_millis),
                 reason := none }) ∧
      (n.is_long = true →
        (n.start_play current_millis).1.is_playing = true ∧
        (n.start_play current_millis).2 = n.play_result)) := by
  refine ⟨?_, ?_, ?_, ?_⟩
  · intro h
    simp only [GameNote.start_play, if_pos h]
  · simp only [GameNote.is_short, GameNote.is_long, hgen, Bool.true_and,
      Bool.not_eq_true', decide_eq_false_iff_not, not_lt, GameNote.get_duration]
  · simp only [GameNote.is_long, hgen, Bool.true_and, decide_eq_true_eq,
      GameNote.get_duration]
  · intro hle
    have hnot : ¬(n.get_position_millis - current_millis >
        3 * n.unit_judge_millis) := not_lt.mpr hle
    refine ⟨?_, ?_, ?_, ?_, ?_⟩
    · intro h1
      by_cases hs : n.is_short = true
      · simp only [GameNote.start_play, if_neg hnot, hs, if_pos h1]
        simp
      · have hl : n.is_long = true := by
          simp only [GameNote.is_short, Bool.not_eq_true', Bool.not_eq_false]
            at hs
          exact hs
        simp only [GameNote.start_play, if_neg hnot, hs, hl, if_pos h1]
        simp
    · intro h1 h2
      have h1' : ¬(|n.get_position_millis - current_millis| <
          n.unit_judge_millis) := not_lt.mpr h1
      by_cases hs : n.is_short = true
      · simp only [GameNote.start_play, if_neg hnot, hs, if_neg h1', if_pos h2]
        simp
      · have hl : n.is_long = true := by
          simp only [GameNote.is_short, Bool.not_eq_true', Bool.not_eq_false]
            at hs
          exact hs
        simp only [GameNote.start_play, if_neg hnot, hs, hl, if_neg h1',
          if_pos h2]
        simp
    · intro h1 h2
      have h1' : ¬(|n.get_position_millis - current_millis| <
          n.unit_judge_millis) := by
        intro hcon
        have h0 : 0 ≤ n.unit_judge_millis := by
          by_contra hneg
          push_neg at hneg
          have : |n.get_position_millis - current_millis| < 0 := by
            calc |n.get_position_millis - current_millis|
                < n.unit_judge_millis := hcon
              _ < 0 := hneg
          exact absurd this (not_lt.mpr (abs_nonneg _))
        nlinarith [abs_nonneg (n.get_position_millis - current_millis)]
      have h2' : ¬(|n.get_position_millis - current_millis| <
          2 * n.unit_judge_millis) := by
        intro hcon
        nlinarith [abs_nonneg (n.get_position_millis - current_millis)]
      by_cases hs : n.is_short = true
      · simp only [GameNote.start_play, if_neg hnot, hs, if_neg h1',
          if_neg h2', if_pos h2]
        simp
      · have hl : n.is_long = true := by
          simp only [GameNote.is_short, Bool.not_eq_true', Bool.not_eq_false]
            at hs
          exact hs
        simp only [GameNote.start_play, if_neg hnot, hs, hl, if_neg h1',
          if_neg h2', if_pos h2]
        simp
    · intro hs
      simp only [GameNote.start_play, if_neg hnot, hs]
      simp
    · intro hl
      have hs : n.is_short = false := by
        simp only [GameNote.is_short, hl, Bool.not_true]
      simp only [GameNote.start_play, if_neg hnot, hs, hl]
      simp

/-- A concrete short GENERAL note (tick 0, duration 4) on a one-tick
timeline, used to instantiate the judgment theorems (the spec's
"struck 50ms late ⇒ MAX90" scenario). -/
def sampleShortNote : GameNote :=
  { note := { position := 0,
              command_type := PTFileCommandType.GENERAL,
              params := PTFileNoteParams.general 0 100 64 0 4 },
    played_millis_per_tick := [0],
    unit_judge_millis := 42,
    is_playing := false,
    is_played := false,
    result_type := none,
    play_result := none }

/-- Witness for C1: the sample short note struck 50ms late grades
MAX90. -/
theorem C1_start_play_judgment_witness :
    (sampleShortNote.start_play 50).1.result_type =
      some GameNotePlayResultType.MAX90 := by
  have hpos : sampleShortNote.get_position_millis = 0 := by
    simp [sampleShortNote, GameNote.get_position_millis, GameNote.get_position]
  have hu : sampleShortNote.unit_judge_millis = 42 := rfl
  exact ((C1_start_play_judgment sampleShortNote 50 (by decide)).2.2.2
      (by rw [hpos, hu]; norm_num)).2.1
    (by rw [hpos, hu]; norm_num) (by rw [hpos, hu]; norm_num)

/-- C6: For every long note in the Playing state, `finish_play`
transitions it to Played; when
`endPositionMillis - currentMillis > 3 × unitJudgeMillis` the grade is
overridden to BREAK with reason TooEarlyToFinish, otherwise the grade
recorded at start is kept; in both cases
`timing_diff = currentMillis - endPositionMillis`. -/
theorem C6_finish_play (n : GameNote) (current_millis : ℚ)
    (hl : n.is_long = true) (hp : n.is_playing = true) :
    (n.finish_play current_millis).1.is_played = true ∧
    (n.finish_play current_millis).1.is_playing = false ∧
    (n.get_end_position_millis - current_millis > 3 * n.unit_judge_millis →
      (n.finish_play current_millis).2 =
        some { result_type := some GameNotePlayResultType.BREAK,
               timing_diff :=
                 some (current_millis - n.get_end_position_millis),
               reason :=
                 some GameNotePlayResultFailReason.TOO_EARLY_TO_FINISH }) ∧
    (n.get_end_position_millis - current_millis ≤ 3 * n.unit_judge_millis →
      (n.finish_play current_millis).2 =
        some { result_type := n.result_type,
               timing_diff :=
                 some (current_millis - n.get_end_position_millis),
               reason := none }) := by
  by_cases he : n.get_end_position_millis - current_millis >
      3 * n.unit_judge_millis
  · refine ⟨?_, ?_, fun _ => ?_, fun hc => absurd he (not_lt.mpr hc)⟩ <;>
      simp [GameNote.finish_play, GameNote.is_too_early_to_finish, hl, hp, he]
  · refine ⟨?_, ?_, fun hc => absurd hc he, fun _ => ?_⟩ <;>
      simp [GameNote.finish_play, GameNote.is_too_early_to_finish, hl, hp, he]

/-- A concrete long GENERAL note (tick 0, duration 10, end tick 10) in
the Playing state with start grade MAX100, on an 11-tick timeline with a
10ms tick interval. -/
def sampleLongNote : GameNote :=
  { note := { position := 0,
              command_type := PTFileCommandType.GENERAL,
              params := PTFileNoteParams.general 0 100 64 0 10 },
    played_millis_per_tick := [0, 10, 20, 30, 40, 50, 60, 70, 80, 90, 100],
    unit_judge_millis := 42,
    is_playing := true,
    is_played := false,
    result_type := some GameNotePlayResultType.MAX100,
    play_result := none }

/-- Witness for C6: releasing the sample long note at 90ms (10ms before
its 100ms end position, inside the 126ms window) keeps the MAX100 start
grade with timing_diff = -10. -/
theorem C6_finish_play_witness :
    (sampleLongNote.finish_play 90).1.is_played = true ∧
    (sampleLongNote.finish_play 90).2 =
      some { result_type := some GameNotePlayResultType.MAX100,
             timing_diff := some (-10),
             reason := none } := by
  have hend : sampleLongNote.get_end_position_millis = 100 := by
    simp [sampleLongNote, GameNote.get_end_position_millis,
      GameNote.get_end_position, GameNote.get_position, GameNote.get_duration,
      PTFileNoteParams.durationOf]
  have hu : sampleLongNote.unit_judge_millis = 42 := rfl
  have hrt : sampleLongNote.result_type = some GameNotePlayResultType.MAX100 :=
    rfl
  have h := C6_finish_play sampleLongNote 90 (by decide) (by decide)
  refine ⟨h.1, ?_⟩
  have h2 := h.2.2.2 (by rw [hend, hu]; norm_num)
  rw [h2, hend, hrt]
  norm_num

/-- C9: `on_play_result` increments the result count by exactly 1,
resets the combo to exactly 0 on BREAK and increments it by exactly 1 on
any non-BREAK grade, and increments exactly the per-grade counter of the
result's grade. -/
theorem C9_on_play_result (s : ScoreState)
    (result_type : GameNotePlayResultType) :
    (on_play_result s result_type).play_result_count =
      s.play_result_count + 1 ∧
    (on_play_result s result_type).combo_count =
      (if result_type = GameNotePlayResultType.BREAK then 0
       else s.combo_count + 1) ∧
    (on_play_result s result_type).result_type_counts result_type =
      s.result_type_counts result_type + 1 ∧
    (∀ other : GameNotePlayResultType, other ≠ result_type →
      (on_play_result s result_type).result_type_counts other =
        s.result_type_counts other) := by
  refine ⟨rfl, rfl, by simp [on_play_result], ?_⟩
  intro other hne
  simp [on_play_result, hne]

/-- Witness for C9: a BREAK result on a concrete score state zeroes the
combo and bumps the BREAK counter. -/
theorem C9_on_play_result_witness :
    (on_play_result
        { play_result_count := 3, combo_count := 3, average_accuracy := 100,
          result_type_counts := fun _ => 0 }
        GameNotePlayResultType.BREAK).combo_count = 0 ∧
    (on_play_result
        { play_result_count := 3, combo_count := 3, average_accuracy := 100,
          result_type_counts := fun _ => 0 }
        GameNotePlayResultType.MAX100).combo_count = 4 := by
  constructor
  · rw [(C9_on_play_result
        { play_result_count := 3, combo_count := 3, average_accuracy := 100,
          result_type_counts := fun _ => 0 }
        GameNotePlayResultType.BREAK).2.1]
    decide
  · rw [(C9_on_play_result
        { play_result_count := 3, combo_count := 3, average_accuracy := 100,
          result_type_counts := fun _ => 0 }
        GameNotePlayResultType.MAX100).2.1]
    decide

/-- C8: On every frame, with `elapsed = currentMillis - startedMillis`
and `incrementalMillis = elapsed - playedMillis`, the clock advance
equals the floor-based specification: when
`⌊incrementalMillis / tickIntervalMillis⌋` is positive, `currentTick`
advances by it and `playedMillis` by `tickIntervalMillis` times it;
otherwise nothing changes (already-accumulated ticks and played time are
never retroactively corrected). -/
theorem C8_tick_advance (current_millis started_millis played_millis
    tick_interval_millis : ℚ) (current_tick : ℤ)
    (hpos : 0 < tick_interval_millis) :
    advance_ticks current_millis started_millis played_millis
        tick_interval_millis current_tick =
      (if 0 < ⌊(current_millis - started_millis - played_millis) /
                tick_interval_millis⌋ then
        (current_tick +
           ⌊(current_millis - started_millis - played_millis) /
              tick_interval_millis⌋,
         played_millis +
           tick_interval_millis *
             (⌊(current_millis - started_millis - played_millis) /
                 tick_interval_millis⌋ : ℚ),
         current_millis - started_millis)
      else
        (current_tick, played_millis, current_millis - started_millis)) := by
  simp only [advance_ticks, pythonInt, if_pos hpos]
  by_cases hq : 0 ≤ (current_millis - started_millis - played_millis) /
      tick_interval_millis
  · rw [if_pos hq]
  · rw [if_neg hq]
    push_neg at hq
    have hceil : ⌈(current_millis - started_millis - played_millis) /
        tick_interval_millis⌉ ≤ 0 := by
      rw [Int.ceil_le]
      exact_mod_cast hq.le
    have hfloor : ⌊(current_millis - started_millis - played_millis) /
        tick_interval_millis⌋ ≤ 0 :=
      le_trans (Int.floor_le_ceil _) hceil
    rw [if_neg (by omega), if_neg (by omega)]

/-- Witness for C8: with elapsed 100ms, played 0ms and a 30ms interval,
the engine advances by 3 ticks and 90ms of played time. -/
theorem C8_tick_advance_witness :
    advance_ticks 100 0 0 30 0 = (3, 90, 100) := by
  have h := C8_tick_advance 100 0 0 30 0 (by norm_num)
  rw [h]
  have hfl : ⌊(100 - 0 - 0 : ℚ) / 30⌋ = 3 := by
    apply Int.floor_eq_iff.mpr
    norm_num
  rw [hfl]
  norm_num

/-- C10 (implicit edge case): a key-down on a head short GENERAL note
with `|diff| ≥ 3 × unitJudgeMillis` that is not early enough to be
ignored (`diff ≤ 3 × unitJudgeMillis`) still marks the note Played, but
no grade branch fires: the returned PlayResult carries
`result_type = None`, the `play_button` guard reports nothing to the
score aggregator, and the note is consumed (no longer playable) with no
grade, BREAK, or combo change. -/
theorem C10_ungraded_press (n : GameNote) (current_millis : ℚ)
    (s : ScoreState)
    (hshort : n.is_short = true)
    (hrt : n.result_type = none)
    (hu : 0 ≤ n.unit_judge_millis)
    (h1 : n.get_position_millis - current_millis ≤ 3 * n.unit_judge_millis)
    (h2 : 3 * n.unit_judge_millis ≤
      |n.get_position_millis - current_millis|) :
    (n.start_play current_millis).1.is_played = true ∧
    GameNote.is_playable (n.start_play current_millis).1 = false ∧
    (n.start_play current_millis).2 =
      some { result_type := none,
             timing_diff := some (current_millis - n.get_position_millis),
             reason := none } ∧
    apply_play_result s (n.start_play current_millis).2 = s ∧
    (∀ t : GameTrack, t.is_playing = false →
      t.notes.get? t.current_play_index = some n →
      (play_button t s GameButtonActionType.KEYDOWN current_millis).2 = s) := by
  have hnot : ¬(n.get_position_millis - current_millis >
      3 * n.unit_judge_millis) := not_lt.mpr h1
  have hw1 : ¬(|n.get_position_millis - current_millis| <
      n.unit_judge_millis) := by
    intro hcon
    nlinarith [abs_nonneg (n.get_position_millis - current_millis)]
  have hw2 : ¬(|n.get_position_millis - current_millis| <
      2 * n.unit_judge_millis) := by
    intro hcon
    nlinarith [abs_nonneg (n.get_position_millis - current_millis)]
  have hw3 : ¬(|n.get_position_millis - current_millis| <
      3 * n.unit_judge_millis) := not_lt.mpr h2
  have hmain : n.start_play current_millis =
      ({ n with is_played := true, result_type := none,
                play_result :=
                  some { result_type := none,
                         timing_diff :=
                           some (current_millis - n.get_position_millis),
                         reason := none } },
       some { result_type := none,
              timing_diff := some (current_millis - n.get_position_millis),
              reason := none }) := by
    simp only [GameNote.start_play, if_neg hnot, if_neg hw1, if_neg hw2,
      if_neg hw3, hrt, hshort, if_true]
  refine ⟨?_, ?_, ?_, ?_, ?_⟩
  · rw [hmain]
  · rw [hmain]
    simp [GameNote.is_playable]
  · rw [hmain]
  · rw [hmain]
    rfl
  · intro t htp hhead
    simp only [play_button, GameTrack.start_play, htp, Bool.false_eq_true,
      if_false, hhead]
    rw [hmain]
    rfl

/-- A concrete very late key-down on the sample short note: 200ms after
its position millis. -/
theorem C10_ungraded_press_witness :
    (sampleShortNote.start_play 200).2 =
      some { result_type := none, timing_diff := some 200, reason := none } ∧
    apply_play_result
        { play_result_count := 0, combo_count := 0, average_accuracy := 0,
          result_type_counts := fun _ => 0 }
        (sampleShortNote.start_play 200).2 =
      { play_result_count := 0, combo_count := 0, average_accuracy := 0,
        result_type_counts := fun _ => 0 } := by
  have hpos : sampleShortNote.get_position_millis = 0 := by
    simp [sampleShortNote, GameNote.get_position_millis, GameNote.get_position]
  have hu : sampleShortNote.unit_judge_millis = 42 := rfl
  have h := C10_ungraded_press sampleShortNote 200
    { play_result_count := 0, combo_count := 0, average_accuracy := 0,
      result_type_counts := fun _ => 0 }
    (by decide) rfl (by rw [hu]; norm_num)
    (by rw [hpos, hu]; norm_num) (by rw [hpos, hu]; norm_num)
  refine ⟨?_, h.2.2.2.1⟩
  rw [h.2.2.1, hpos]
  norm_num

/-- C4: `parse` reads the little-endian u16 at byte offset 0x18 of the
raw buffer; iff that value is not exactly 1, the whole raw buffer is
exchanged through the Decryption Gateway before any structural parsing;
if it is 1 the buffer is parsed as-is with no gateway involvement. -/
theorem C4_obfuscation_gate (decrypt_buffer : List ℕ → List ℕ)
    (buf : List ℕ) (v : ℕ) (h : readU16 buf 0x18 = some v) :
    (v ≠ 1 → PTFile.parse decrypt_buffer buf =
      parseStructural (decrypt_buffer buf)) ∧
    (v = 1 → PTFile.parse decrypt_buffer buf = parseStructural buf) := by
  constructor
  · intro hv
    simp [PTFile.parse, PTFile.is_encrypted, h, hv]
  · intro hv
    subst hv
    simp [PTFile.parse, PTFile.is_encrypted, h]

/-- Witness for C4: a 26-byte buffer whose u16 at 0x18 is 7 goes through
the gateway (modelled as reversal here), one whose u16 is 1 does not. -/
theorem C4_obfuscation_gate_witness :
    PTFile.parse List.reverse (List.replicate 24 0 ++ [7, 0]) =
      parseStructural (List.reverse (List.replicate 24 0 ++ [7, 0])) ∧
    PTFile.parse List.reverse (List.replicate 24 0 ++ [1, 0]) =
      parseStructural (List.replicate 24 0 ++ [1, 0]) :=
  ⟨(C4_obfuscation_gate List.reverse (List.replicate 24 0 ++ [7, 0]) 7
      (by decide)).1 (by decide),
   (C4_obfuscation_gate List.reverse (List.replicate 24 0 ++ [1, 0]) 1
      (by decide)).2 rfl⟩

/-! ## C7: channel allocation -/

/-- `self._number_of_channels_per_track` as a list in track-iteration
order: each effective track is summarized by (has_any_general_note,
has_any_overlap, track_type). -/
def number_of_channels_per_track
    (tracks : List (Bool × Bool × GameTrackType)) : List ℕ :=
  tracks.map fun t => number_of_channels t.1 t.2.1 t.2.2

/-- `self._total_number_of_channels`. -/
def total_number_of_channels
    (tracks : List (Bool × Bool × GameTrackType)) : ℕ :=
  (number_of_channels_per_track tracks).sum

/-- `self._channel_per_track`: the global pool
`[Channel(i) for i in range(total)]` carved by `partition_list_by_size`
into per-track slices, in track-iteration order. -/
def channel_ranges (tracks : List (Bool × Bool × GameTrackType)) :
    List (List ℕ) :=
  partition_list_by_size (List.range (total_number_of_channels tracks))
    (number_of_channels_per_track tracks) 0

/-- Concatenating the carved slices recovers the contiguous window of
the source list: the slices are contiguous, disjoint, and in order. -/
theorem partition_list_by_size_join {α : Type} (lst : List α)
    (sizes : List ℕ) (endAcc : ℕ) :
    (partition_list_by_size lst sizes endAcc).flatten =
      (lst.drop endAcc).take sizes.sum := by
  induction sizes generalizing endAcc with
  | nil => simp [partition_list_by_size]
  | cons size rest ih =>
      simp only [partition_list_by_size, List.flatten_cons, ih, List.sum_cons]
      rw [List.take_add, List.drop_drop]

/-- Each slice has exactly its requested length as long as the source
list is long enough for all of them. -/
theorem partition_list_by_size_length {α : Type} (lst : List α)
    (sizes : List ℕ) (endAcc : ℕ) (hlen : endAcc + sizes.sum ≤ lst.length) :
    ∀ i, i < sizes.length →
      ((partition_list_by_size lst sizes endAcc).getD i []).length =
        sizes.getD i 0 := by
  induction sizes generalizing endAcc with
  | nil => intro i hi; simp at hi
  | cons size rest ih =>
      intro i hi
      cases i with
      | zero =>
          simp only [partition_list_by_size, List.getD_cons_zero]
          rw [List.length_take, List.length_drop]
          simp only [List.sum_cons] at hlen
          omega
      | succ j =>
          simp only [partition_list_by_size, List.getD_cons_succ]
          apply ih (endAcc + size)
          · simp only [List.sum_cons] at hlen
            omega
          · simpa using hi

/-- The number of carved ranges equals the number of requested sizes. -/
theorem partition_list_by_size_count {α : Type} (lst : List α)
    (sizes : List ℕ) (endAcc : ℕ) :
    (partition_list_by_size lst sizes endAcc).length = sizes.length := by
  induction sizes generalizing endAcc with
  | nil => simp [partition_list_by_size]
  | cons size rest ih => simp [partition_list_by_size, ih]

/-- C7: After chart load, every effective track's channel count is 0 if
it has no GENERAL note, 2 if it was flagged "has overlap" or is in the
foreground-melody (FG1) category, else 1; the global pool size is the sum
of the per-track counts; and the pool is carved into contiguous, disjoint
per-track ranges, in track-iteration order. -/
theorem C7_channel_allocation (tracks : List (Bool × Bool × GameTrackType)) :
    (∀ (i : ℕ) (h : i < tracks.length),
      ((tracks.get ⟨i, h⟩).1 = false →
        (number_of_channels_per_track tracks).getD i 0 = 0) ∧
      ((tracks.get ⟨i, h⟩).1 = true →
        ((tracks.get ⟨i, h⟩).2.1 = true ∨
          (tracks.get ⟨i, h⟩).2.2 = GameTrackType.FG1) →
        (number_of_channels_per_track tracks).getD i 0 = 2) ∧
      ((tracks.get ⟨i, h⟩).1 = true →
        (tracks.get ⟨i, h⟩).2.1 = false →
        (tracks.get ⟨i, h⟩).2.2 ≠ GameTrackType.FG1 →
        (number_of_channels_per_track tracks).getD i 0 = 1)) ∧
    (List.range (total_number_of_channels tracks)).length =
      (number_of_channels_per_track tracks).sum ∧
    (channel_ranges tracks).length = tracks.length ∧
    (∀ i : ℕ, i < tracks.length →
      ((channel_ranges tracks).getD i []).length =
        (number_of_channels_per_track tracks).getD i 0) ∧
    (channel_ranges tracks).flatten =
      List.range (total_number_of_channels tracks) := by
  have hsizes_len : (number_of_channels_per_track tracks).length =
      tracks.length := by
    simp [number_of_channels_per_track]
  have hgetD : ∀ (i : ℕ) (h : i < tracks.length),
      (number_of_channels_per_track tracks).getD i 0 =
        number_of_channels (tracks.get ⟨i, h⟩).1
          (tracks.get ⟨i, h⟩).2.1 (tracks.get ⟨i, h⟩).2.2 := by
    intro i h
    simp only [number_of_channels_per_track, List.getD_eq_getElem?_getD,
      List.getElem?_map, List.getElem?_eq_getElem h, Option.map_some',
      Option.getD_some, List.get_eq_getElem]
  refine ⟨?_, ?_, ?_, ?_, ?_⟩
  · intro i h
    refine ⟨?_, ?_, ?_⟩
    · intro hg
      rw [hgetD i h]
      simp only [List.get_eq_getElem] at hg
      simp [number_of_channels, hg]
    · intro hg hov
      rw [hgetD i h]
      simp only [List.get_eq_getElem] at hg hov
      rcases hov with hov | hov
      · simp [number_of_channels, hg, hov]
      · simp [number_of_channels, hg, hov]
    · intro hg hno hnf
      rw [hgetD i h]
      simp only [List.get_eq_getElem] at hg hno hnf
      simp [number_of_channels, hg, hno, hnf]
  · simp [total_number_of_channels]
  · rw [channel_ranges, partition_list_by_size_count, hsizes_len]
  · intro i h
    apply partition_list_by_size_length
    · simp [total_number_of_channels]
    · omega
  · rw [channel_ranges, partition_list_by_size_join]
    simp [total_number_of_channels]

/-- Four sample effective tracks: an FG1 track without overlap, a BG
track with overlap, a BG track without overlap, and a track with no
GENERAL notes. -/
def sampleC7Tracks : List (Bool × Bool × GameTrackType) :=
  [(true, false, GameTrackType.FG1), (true, true, GameTrackType.BG),
   (true, false, GameTrackType.BG), (false, false, GameTrackType.CMD)]

/-- Witness for C7: the overlap-flagged BG track gets 2 channels, and
the carved ranges cover the 5-channel pool contiguously. -/
theorem C7_channel_allocation_witness :
    (number_of_channels_per_track sampleC7Tracks).getD 1 0 = 2 ∧
    (channel_ranges sampleC7Tracks).flatten =
      List.range (total_number_of_channels sampleC7Tracks) :=
  ⟨((C7_channel_allocation sampleC7Tracks).1 1 (by decide)).2.1
      (by decide) (Or.inl (by decide)),
   (C7_channel_allocation sampleC7Tracks).2.2.2.2⟩

/-- The auto-fail sweep only ever moves the judgment cursor forward. -/
theorem auto_fail_sweep_index_le (elapsed_millis : ℚ) (is_auto_play : Bool)
    (t : GameTrack) :
    t.current_play_index ≤
      (auto_fail_sweep elapsed_millis is_auto_play t).1.current_play_index := by
  induction t using auto_fail_sweep.induct elapsed_millis is_auto_play with
  | case1 x hlt note hfail hap t' ih =>
      subst hap
      have hfail' : (x.notes.get
          ⟨x.current_play_index, hlt⟩).should_fail_to_play elapsed_millis =
          true := hfail
      rw [auto_fail_sweep, dif_pos hlt]
      simp only [hfail', if_true]
      refine le_trans ?_ ih
      show x.current_play_index ≤ GameTrack.find_note_index_from x.notes
        GameNote.is_playable (x.current_play_index + 1)
      have := GameTrack.le_find_note_index_from x.notes GameNote.is_playable
        (x.current_play_index + 1) (by omega)
      omega
  | case2 x hlt note hfail hap note' play_result hfl t' t'' rest hsw ih =>
      rw [Bool.not_eq_true] at hap
      subst hap
      have hfail' : (x.notes.get
          ⟨x.current_play_index, hlt⟩).should_fail_to_play elapsed_millis =
          true := hfail
      have hfl' : (x.notes.get ⟨x.current_play_index, hlt⟩).fail
          elapsed_millis = (note', play_result) := hfl
      rw [auto_fail_sweep, dif_pos hlt]
      simp only [hfail', if_true, Bool.false_eq_true, if_false, hfl']
      refine le_trans ?_ ih
      show x.current_play_index ≤ GameTrack.find_note_index_from
        (x.notes.set x.current_play_index note') GameNote.is_playable
        (x.current_play_index + 1)
      have := GameTrack.le_find_note_index_from
        (x.notes.set x.current_play_index note') GameNote.is_playable
        (x.current_play_index + 1) (by simp only [List.length_set]; omega)
      omega
  | case3 x hlt note hfail =>
      have hfail' : ¬(x.notes.get
          ⟨x.current_play_index, hlt⟩).should_fail_to_play elapsed_millis =
          true := hfail
      rw [auto_fail_sweep, dif_pos hlt]
      rw [Bool.not_eq_true] at hfail'
      simp only [hfail', Bool.false_eq_true, if_false, le_refl]
  | case4 x hlt =>
      rw [auto_fail_sweep, dif_neg hlt]

/-- C5: In the per-frame auto-fail sweep over interactive tracks, a head
note that has not started and is more than `3 × unitJudgeMillis` past its
position millis fails with grade BREAK and reason TooLateToStart; a head
note that is Playing and is more than `3 × unitJudgeMillis` past its
end-position millis fails with grade MAX1 and reason TooLateToFinish —
never BREAK; each such fail advances the judgment cursor and reports the
PlayResult. -/
theorem C5_auto_fail_sweep (n : GameNote) (elapsed_millis : ℚ)
    (t : GameTrack) :
    (n.is_playing = false →
      elapsed_millis - n.get_position_millis > 3 * n.unit_judge_millis →
      n.fail elapsed_millis =
        ({ n with
            play_result :=
              some { result_type := some GameNotePlayResultType.BREAK,
                     timing_diff :=
                       some (elapsed_millis - n.get_position_millis),
                     reason :=
                       some GameNotePlayResultFailReason.TOO_LATE_TO_START } },
         some { result_type := some GameNotePlayResultType.BREAK,
                timing_diff := some (elapsed_millis - n.get_position_millis),
                reason :=
                  some GameNotePlayResultFailReason.TOO_LATE_TO_START })) ∧
    (n.is_playing = true →
      elapsed_millis - n.get_end_position_millis > 3 * n.unit_judge_millis →
      n.fail elapsed_millis =
        ({ n with
            play_result :=
              some { result_type := some GameNotePlayResultType.MAX1,
                     timing_diff :=
                       some (elapsed_millis - n.get_end_position_millis),
                     reason :=
                       some GameNotePlayResultFailReason.TOO_LATE_TO_FINISH } },
         some { result_type := some GameNotePlayResultType.MAX1,
                timing_diff :=
                  some (elapsed_millis - n.get_end_position_millis),
                reason :=
                  some GameNotePlayResultFailReason.TOO_LATE_TO_FINISH }) ∧
      (∀ r : GameNotePlayResult, (n.fail elapsed_millis).2 = some r →
        r.result_type ≠ some GameNotePlayResultType.BREAK)) ∧
    (∀ (h : t.current_play_index < t.notes.length),
      (t.notes.get
          ⟨t.current_play_index, h⟩).should_fail_to_play elapsed_millis =
        true →
      t.current_play_index <
        (auto_fail_sweep elapsed_millis false t).1.current_play_index ∧
      (∀ r : GameNotePlayResult,
        ((t.notes.get ⟨t.current_play_index, h⟩).fail elapsed_millis).2 =
          some r →
        r.result_type.isSome = true →
        r ∈ (auto_fail_sweep elapsed_millis false t).2)) := by
  refine ⟨?_, ?_, ?_⟩
  · intro hp hlate
    simp only [GameNote.fail, GameNote.is_too_late_to_start, hp,
      Bool.not_false, Bool.true_and, decide_eq_true_eq]
    rw [if_pos hlate]
  · intro hp hlate
    have hstart : n.is_too_late_to_start elapsed_millis = false := by
      simp [GameNote.is_too_late_to_start, hp]
    have hfin : n.is_too_late_to_finish elapsed_millis = true := by
      simp [GameNote.is_too_late_to_finish, hlate]
    constructor
    · simp only [GameNote.fail, hstart, Bool.false_eq_true, if_false, hfin,
        if_true]
    · intro r hr
      simp only [GameNote.fail, hstart, Bool.false_eq_true, if_false, hfin,
        if_true, Option.some.injEq] at hr
      rw [← hr]
      simp
  · intro h hsf
    have hstep : auto_fail_sweep elapsed_millis false t =
        ((auto_fail_sweep elapsed_millis false
            (GameTrack.increment_play_index
              { t with notes := t.notes.set t.current_play_index ((t.notes.get ⟨t.current_play_index, h⟩).fail elapsed_millis).1 })).1,
         (match ((t.notes.get
              ⟨t.current_play_index, h⟩).fail elapsed_millis).2 with
          | some r => if r.result_type.isSome = true then [r] else []
          | none => []) ++
          (auto_fail_sweep elapsed_millis false
            (GameTrack.increment_play_index
              { t with notes := t.notes.set t.current_play_index ((t.notes.get ⟨t.current_play_index, h⟩).fail elapsed_millis).1 })).2) := by
      rw [auto_fail_sweep, dif_pos h]
      simp only [hsf, if_true, Bool.false_eq_true, if_false]
    have hinc : t.current_play_index + 1 ≤
        (GameTrack.increment_play_index
          { t with notes := t.notes.set t.current_play_index ((t.notes.get ⟨t.current_play_index, h⟩).fail elapsed_millis).1 }).current_play_index := by
      show t.current_play_index + 1 ≤ GameTrack.find_note_index_from
        (t.notes.set t.current_play_index
          ((t.notes.get ⟨t.current_play_index, h⟩).fail elapsed_millis).1)
        GameNote.is_playable (t.current_play_index + 1)
      exact GameTrack.le_find_note_index_from _ _ _
        (by simp only [List.length_set]; omega)
    have hmono := auto_fail_sweep_index_le elapsed_millis false
      (GameTrack.increment_play_index
        { t with notes := t.notes.set t.current_play_index ((t.notes.get ⟨t.current_play_index, h⟩).fail elapsed_millis).1 })
    constructor
    · rw [hstep]
      show t.current_play_index <
        (auto_fail_sweep elapsed_millis false
          (GameTrack.increment_play_index
            { t with notes := t.notes.set t.current_play_index ((t.notes.get ⟨t.current_play_index, h⟩).fail elapsed_millis).1 })).1.current_play_index
      omega
    · intro r hr hsome
      rw [hstep]
      show r ∈ (match ((t.notes.get
            ⟨t.current_play_index, h⟩).fail elapsed_millis).2 with
          | some r => if r.result_type.isSome = true then [r] else []
          | none => []) ++
          (auto_fail_sweep elapsed_millis false
            (GameTrack.increment_play_index
              { t with notes := t.notes.set t.current_play_index ((t.notes.get ⟨t.current_play_index, h⟩).fail elapsed_millis).1 })).2
      rw [hr]
      simp only [hsome, if_true]
      exact List.mem_append_left _ (List.mem_cons_self r [])

/-- A one-note interactive track whose head note (the sample short note)
has not been started. -/
def sampleFailTrack : GameTrack :=
  { notes := [sampleShortNote], current_play_index := 0, is_playing := false }

/-- Witness for C5: sweeping the sample track at elapsed = 200ms (74ms
past the 126ms window) fails the head note with BREAK/TooLateToStart,
advances the cursor, and reports the result. -/
theorem C5_auto_fail_sweep_witness :
    0 < (auto_fail_sweep 200 false sampleFailTrack).1.current_play_index ∧
    ({ result_type := some GameNotePlayResultType.BREAK,
       timing_diff := some 200,
       reason := some GameNotePlayResultFailReason.TOO_LATE_TO_START } :
      GameNotePlayResult) ∈ (auto_fail_sweep 200 false sampleFailTrack).2 := by
  have hpos : sampleShortNote.get_position_millis = 0 := by
    simp [sampleShortNote, GameNote.get_position_millis, GameNote.get_position]
  have hu : sampleShortNote.unit_judge_millis = 42 := rfl
  have hpl : sampleShortNote.is_playing = false := rfl
  have hsf : sampleShortNote.should_fail_to_play 200 = true := by
    simp only [GameNote.should_fail_to_play, GameNote.is_too_late_to_start,
      hpos, hu, hpl, Bool.not_false, Bool.true_and, Bool.false_and,
      Bool.or_false]
    rw [decide_eq_true_eq]
    norm_num
  have hfail := (C5_auto_fail_sweep sampleShortNote 200 sampleFailTrack).1 hpl
    (by rw [hpos, hu]; norm_num)
  have h3 := (C5_auto_fail_sweep sampleShortNote 200 sampleFailTrack).2.2
    (by decide) hsf
  refine ⟨h3.1, ?_⟩
  have hsnd : ((sampleFailTrack.notes.get
      ⟨sampleFailTrack.current_play_index, by decide⟩).fail 200).2 =
      some { result_type := some GameNotePlayResultType.BREAK,
             timing_diff := some 200,
             reason := some GameNotePlayResultFailReason.TOO_LATE_TO_START } := by
    have hsnd0 := congrArg Prod.snd hfail
    simp only at hsnd0
    rw [hpos] at hsnd0
    norm_num at hsnd0
    exact hsnd0
  exact h3.2 _ hsnd rfl

/-! ## C3: totality and format errors of parse -/

/-- Peeling one monadic bind of a successful `Except` computation. -/
theorem except_bind_eq_ok {ε α β : Type} {e : Except ε α}
    {f : α → Except ε β} {b : β} (h : e >>= f = Except.ok b) :
    ∃ a, e = Except.ok a ∧ f a = Except.ok b := by
  cases e with
  | error err =>
      exact Except.noConfusion
        (show (Except.error err : Except ε β) = Except.ok b from h)
  | ok a => exact ⟨a, rfl, h⟩

/-- Bind of a successful action steps to its continuation. -/
theorem except_bind_ok_arg {ε α β : Type} (a : α) (f : α → Except ε β) :
    ((Except.ok a : Except ε α) >>= f) = f a := rfl

/-- `parseSounds` returns exactly as many sound entries as requested. -/
theorem parseSounds_length (buf : List ℕ) :
    ∀ (count off : ℕ) (l : List PTFileSound) (off' : ℕ),
      parseSounds buf off count = Except.ok (l, off') → l.length = count := by
  intro count
  induction count with
  | zero =>
      intro off l off' h
      simp only [parseSounds] at h
      cases h
      rfl
  | succ k ih =>
      intro off l off' h
      simp only [parseSounds] at h
      obtain ⟨index, h1, h⟩ := except_bind_eq_ok h
      obtain ⟨command, h2, h⟩ := except_bind_eq_ok h
      obtain ⟨fnb, h3, h⟩ := except_bind_eq_ok h
      obtain ⟨pr, h4, h⟩ := except_bind_eq_ok h
      obtain ⟨rest, off2⟩ := pr
      have hp := Except.ok.inj h
      cases hp
      simp [ih _ _ _ h4]

/-- `parseTracks` returns exactly as many track entries as requested. -/
theorem parseTracks_length (buf : List ℕ) :
    ∀ (count off : ℕ) (l : List PTFileTrack) (off' : ℕ),
      parseTracks buf off count = Except.ok (l, off') → l.length = count := by
  intro count
  induction count with
  | zero =>
      intro off l off' h
      simp only [parseTracks] at h
      cases h
      rfl
  | succ k ih =>
      intro off l off' h
      simp only [parseTracks] at h
      obtain ⟨pr1, h1, h⟩ := except_bind_eq_ok h
      obtain ⟨track, off2⟩ := pr1
      obtain ⟨pr2, h2, h⟩ := except_bind_eq_ok h
      obtain ⟨rest, off3⟩ := pr2
      have hp := Except.ok.inj h
      cases hp
      simp [ih _ _ _ h2]

/-- A successfully parsed Chart is complete: it carries exactly the
header-declared numbers of sound entries and track records. -/
theorem parseStructural_complete (buf : List ℕ) (c : PTFile)
    (h : parseStructural buf = Except.ok c) :
    c.sounds.length = c.header.number_of_sounds ∧
    c.tracks.length = c.header.number_of_tracks := by
  simp only [parseStructural] at h
  obtain ⟨ptff, h1, h⟩ := except_bind_eq_ok h
  obtain ⟨vmaj, h2, h⟩ := except_bind_eq_ok h
  obtain ⟨vmin, h3, h⟩ := except_bind_eq_ok h
  obtain ⟨tpm, h4, h⟩ := except_bind_eq_ok h
  obtain ⟨mbpm, h5, h⟩ := except_bind_eq_ok h
  obtain ⟨ntr, h6, h⟩ := except_bind_eq_ok h
  obtain ⟨ttk, h7, h⟩ := except_bind_eq_ok h
  obtain ⟨tis, h8, h⟩ := except_bind_eq_ok h
  obtain ⟨nsnd, h9, h⟩ := except_bind_eq_ok h
  by_cases hm : ptff ≠ ptffMagic
  · rw [if_pos hm] at h
    exact Except.noConfusion h
  · rw [if_neg hm] at h
    obtain ⟨ps, h10, h⟩ := except_bind_eq_ok h
    obtain ⟨sounds, off⟩ := ps
    obtain ⟨pt, h11, h⟩ := except_bind_eq_ok h
    obtain ⟨tracks, off2⟩ := pt
    have hp := Except.ok.inj h
    subst hp
    exact ⟨parseSounds_length buf nsnd 24 sounds off h10,
           parseTracks_length buf ntr off tracks off2 h11⟩

/-- The gateway branch of `parse`, as a single equation. -/
theorem parse_gate (decrypt_buffer : List ℕ → List ℕ) (buf : List ℕ)
    (v : ℕ) (h : readU16 buf 0x18 = some v) :
    PTFile.parse decrypt_buffer buf =
      if v = 1 then parseStructural buf
      else parseStructural (decrypt_buffer buf) := by
  by_cases hv : v = 1
  · simp [PTFile.parse, PTFile.is_encrypted, h, hv]
  · simp [PTFile.parse, PTFile.is_encrypted, h, hv]

/-- Readers succeed on in-bounds offsets. -/
theorem readByte_total {buf : List ℕ} {off : ℕ} (h : off < buf.length) :
    ∃ v, readByte buf off = some v :=
  ⟨buf.getD off 0, by simp [readByte, h]⟩

/-- A u16 read succeeds when there are two bytes in range. -/
theorem readU16_total {buf : List ℕ} {off : ℕ} (h : off + 2 ≤ buf.length) :
    ∃ v, readU16 buf off = some v := by
  obtain ⟨a, ha⟩ := @readByte_total buf (off) (by omega)
  obtain ⟨b, hb⟩ := @readByte_total buf (off + 1) (by omega)
  exact ⟨a + 256 * b, by simp [readU16, ha, hb]⟩

/-- A u32 read succeeds when there are four bytes in range. -/
theorem readU32_total {buf : List ℕ} {off : ℕ} (h : off + 4 ≤ buf.length) :
    ∃ v, readU32 buf off = some v := by
  obtain ⟨a, ha⟩ := @readByte_total buf (off) (by omega)
  obtain ⟨b, hb⟩ := @readByte_total buf (off + 1) (by omega)
  obtain ⟨c, hc⟩ := @readByte_total buf (off + 2) (by omega)
  obtain ⟨d, hd⟩ := @readByte_total buf (off + 3) (by omega)
  exact ⟨a + 256 * b + 65536 * c + 16777216 * d,
    by simp [readU32, ha, hb, hc, hd]⟩

/-- An f32 read succeeds when there are four bytes in range. -/
theorem readF32_total {buf : List ℕ} {off : ℕ} (h : off + 4 ≤ buf.length) :
    ∃ v, readF32 buf off = some v := by
  obtain ⟨u, hu⟩ := @readU32_total buf (off) h
  exact ⟨decodeF32 u, by simp [readF32, hu]⟩

/-- A long-enough buffer whose first four bytes are not "PTFF" makes
structural parsing fail with the bad-header-magic FormatError. -/
theorem parseStructural_bad_magic (buf : List ℕ) (m : List ℕ)
    (hlen : 24 ≤ buf.length) (hm : readBytesList buf 0 4 = some m)
    (hneq : m ≠ ptffMagic) :
    parseStructural buf = Except.error PTFileFormatError.bad_header_magic := by
  obtain ⟨v4, h4⟩ := @readByte_total buf (4) (by omega)
  obtain ⟨v5, h5⟩ := @readByte_total buf (5) (by omega)
  obtain ⟨v6, h6⟩ := @readU16_total buf (6) (by omega)
  obtain ⟨v8, h8⟩ := @readF32_total buf (8) (by omega)
  obtain ⟨v12, h12⟩ := @readU16_total buf (12) (by omega)
  obtain ⟨v14, h14⟩ := @readU32_total buf (14) (by omega)
  obtain ⟨v18, h18⟩ := @readF32_total buf (18) (by omega)
  obtain ⟨v22, h22⟩ := @readU16_total buf (22) (by omega)
  simp only [parseStructural, hm, h4, h5, h6, h8, h12, h14, h18, h22, need,
    except_bind_ok_arg]
  rw [if_pos hneq]

/-- A buffer with a valid "PTFF" header declaring one track and no
sounds, whose track record's magic is "XXXX" instead of "EZTR". -/
def eztrBadBuffer : List ℕ :=
  [80, 84, 70, 70, 1, 0, 224, 1, 0, 0, 240, 66, 1, 0, 4, 0, 0, 0,
   0, 0, 0, 0, 0, 0] ++
  ([88, 88, 88, 88] ++ [0, 0] ++ List.replicate 64 0 ++
   [4, 0, 0, 0] ++ [0, 0, 0, 0] ++ [0, 0])

/-- A buffer with a valid header and one valid "EZTR" track holding a
single 16-byte note record whose commandType is 5. -/
def badCommandBuffer : List ℕ :=
  [80, 84, 70, 70, 1, 0, 224, 1, 0, 0, 240, 66, 1, 0, 4, 0, 0, 0,
   0, 0, 0, 0, 0, 0] ++
  ([69, 90, 84, 82] ++ [0, 0] ++ List.replicate 64 0 ++
   [4, 0, 0, 0] ++ [16, 0, 0, 0] ++ [0, 0]) ++
  ([0, 0, 0, 0] ++ [5] ++ [0, 0, 0] ++ List.replicate 8 0)

set_option maxRecDepth 16384 in
/-- C3: `parse` is total — it returns a complete Chart (with exactly the
header-declared numbers of sounds and tracks) or fails with a
FormatError; a header whose first 4 bytes are not "PTFF", a track record
whose first 4 bytes are not "EZTR", and a note record whose commandType
is outside {1,2,3,4} each abort parsing with a FormatError, and no
partial Chart is ever returned. -/
theorem C3_parse_total_format_errors :
    (∀ (decrypt_buffer : List ℕ → List ℕ) (buf : List ℕ),
      (∃ c, PTFile.parse decrypt_buffer buf = Except.ok c) ∨
      (∃ e, PTFile.parse decrypt_buffer buf = Except.error e)) ∧
    (∀ (decrypt_buffer : List ℕ → List ℕ) (buf : List ℕ) (c : PTFile),
      PTFile.parse decrypt_buffer buf = Except.ok c →
      c.sounds.length = c.header.number_of_sounds ∧
      c.tracks.length = c.header.number_of_tracks) ∧
    (∀ (decrypt_buffer : List ℕ → List ℕ) (buf : List ℕ) (m : List ℕ),
      readU16 buf 0x18 = some 1 → 24 ≤ buf.length →
      readBytesList buf 0 4 = some m → m ≠ ptffMagic →
      PTFile.parse decrypt_buffer buf =
        Except.error PTFileFormatError.bad_header_magic) ∧
    PTFile.parse id eztrBadBuffer =
      Except.error PTFileFormatError.bad_track_magic ∧
    PTFile.parse id badCommandBuffer =
      Except.error PTFileFormatError.unsupported_command_type := by
  refine ⟨?_, ?_, ?_, ?_, ?_⟩
  · intro decrypt_buffer buf
    cases PTFile.parse decrypt_buffer buf with
    | ok c => exact Or.inl ⟨c, rfl⟩
    | error e => exact Or.inr ⟨e, rfl⟩
  · intro decrypt_buffer buf c h
    simp only [PTFile.parse] at h
    split at h
    · exact Except.noConfusion h
    · exact parseStructural_complete _ _ h
    · exact parseStructural_complete _ _ h
  · intro decrypt_buffer buf m h16 hlen hm hneq
    rw [parse_gate decrypt_buffer buf 1 h16, if_pos rfl]
    exact parseStructural_bad_magic buf m hlen hm hneq
  · rfl
  · rfl

/-- Witness for C3: a 26-byte all-zero buffer (u16 at 0x18 equal to 1)
whose first four bytes are not "PTFF" fails with the bad-header-magic
FormatError. -/
theorem C3_parse_total_format_errors_witness :
    PTFile.parse id (List.replicate 24 0 ++ [1, 0]) =
      Except.error PTFileFormatError.bad_header_magic :=
  C3_parse_total_format_errors.2.2.1 id (List.replicate 24 0 ++ [1, 0])
    [0, 0, 0, 0] (by decide) (by decide) (by decide) (by decide)

/-! ## C2: timeline builder invariants -/

/-- Draining a track keeps the running tick interval equal to
`240000 / ticks_per_measure / tempo`: the two are only ever updated
together by a BPM note. -/
theorem drain_track_at_tick_link (ticks_per_measure : ℕ)
    (sound_length : ℕ → ℚ) (cursor_tick : ℕ) (played_arr : List ℚ)
    (played_millis : ℚ) :
    ∀ (notes : List PTFileNote) (scan : TrackScan) (tempo interval : ℚ),
      interval = 240000 / (ticks_per_measure : ℚ) / tempo →
      (drain_track_at_tick ticks_per_measure sound_length cursor_tick
          played_arr played_millis notes scan tempo interval).2.2.2 =
        240000 / (ticks_per_measure : ℚ) /
          (drain_track_at_tick ticks_per_measure sound_length cursor_tick
            played_arr played_millis notes scan tempo interval).2.2.1 := by
  intro notes
  induction notes with
  | nil =>
      intro scan tempo interval h
      simpa [drain_track_at_tick] using h
  | cons note rest ih =>
      intro scan tempo interval h
      by_cases hpos : note.position ≤ cursor_tick
      · simp only [drain_track_at_tick, if_pos hpos]
        by_cases hbpm : note.command_type = PTFileCommandType.BPM
        · simp only [hbpm, if_true]
          exact ih _ _ _ rfl
        · simp only [if_neg hbpm]
          exact ih _ _ _ h
      · simp only [drain_track_at_tick, if_neg hpos]
        exact h

/-- Draining all tracks at one tick keeps the tempo/interval link. -/
theorem drain_tracks_at_tick_link (ticks_per_measure : ℕ)
    (sound_length : ℕ → ℚ) (cursor_tick : ℕ) (played_arr : List ℚ)
    (played_millis : ℚ) :
    ∀ (tracks : List TimelineTrack) (tempo interval : ℚ),
      interval = 240000 / (ticks_per_measure : ℚ) / tempo →
      (drain_tracks_at_tick ticks_per_measure sound_length cursor_tick
          played_arr played_millis tracks tempo interval).2.2 =
        240000 / (ticks_per_measure : ℚ) /
          (drain_tracks_at_tick ticks_per_measure sound_length cursor_tick
            played_arr played_millis tracks tempo interval).2.1 := by
  intro tracks
  induction tracks with
  | nil =>
      intro tempo interval h
      simpa [drain_tracks_at_tick] using h
  | cons track rest ih =>
      intro tempo interval h
      simp only [drain_tracks_at_tick]
      exact ih _ _ (drain_track_at_tick_link ticks_per_measure sound_length
        cursor_tick played_arr played_millis track.notes track.scan tempo
        interval h)

/-- Draining a track from a nonneg-tempo note list yields a nonneg
interval and leaves only nonneg-tempo notes. -/
theorem drain_track_at_tick_nonneg (ticks_per_measure : ℕ)
    (sound_length : ℕ → ℚ) (cursor_tick : ℕ) (played_arr : List ℚ)
    (played_millis : ℚ) :
    ∀ (notes : List PTFileNote) (scan : TrackScan) (tempo interval : ℚ),
      (∀ note ∈ notes, 0 ≤ note.params.tempoOf) → 0 ≤ interval →
      (∀ note ∈ (drain_track_at_tick ticks_per_measure sound_length
          cursor_tick played_arr played_millis notes scan tempo
          interval).1, 0 ≤ note.params.tempoOf) ∧
      0 ≤ (drain_track_at_tick ticks_per_measure sound_length cursor_tick
          played_arr played_millis notes scan tempo interval).2.2.2 := by
  intro notes
  induction notes with
  | nil =>
      intro scan tempo interval hn hi
      simp only [drain_track_at_tick]
      exact ⟨fun note hmem => absurd hmem (List.not_mem_nil note), hi⟩
  | cons note rest ih =>
      intro scan tempo interval hn hi
      by_cases hpos : note.position ≤ cursor_tick
      · simp only [drain_track_at_tick, if_pos hpos]
        by_cases hbpm : note.command_type = PTFileCommandType.BPM
        · simp only [hbpm, if_true]
          refine ih _ _ _ (fun n hm => hn n (List.mem_cons_of_mem _ hm)) ?_
          have ht : 0 ≤ note.params.tempoOf := hn note (List.mem_cons_self _ _)
          have h1 : (0 : ℚ) ≤ 240000 / (ticks_per_measure : ℚ) :=
            div_nonneg (by norm_num) (Nat.cast_nonneg _)
          exact div_nonneg h1 ht
        · simp only [if_neg hbpm]
          exact ih _ _ _ (fun n hm => hn n (List.mem_cons_of_mem _ hm)) hi
      · simp only [drain_track_at_tick, if_neg hpos]
        exact ⟨hn, hi⟩

/-- Draining all tracks at one tick preserves nonneg tempos and yields a
nonneg interval. -/
theorem drain_tracks_at_tick_nonneg (ticks_per_measure : ℕ)
    (sound_length : ℕ → ℚ) (cursor_tick : ℕ) (played_arr : List ℚ)
    (played_millis : ℚ) :
    ∀ (tracks : List TimelineTrack) (tempo interval : ℚ),
      (∀ track ∈ tracks, ∀ note ∈ track.notes, 0 ≤ note.params.tempoOf) →
      0 ≤ interval →
      (∀ track ∈ (drain_tracks_at_tick ticks_per_measure sound_length
          cursor_tick played_arr played_millis tracks tempo interval).1,
        ∀ note ∈ track.notes, 0 ≤ note.params.tempoOf) ∧
      0 ≤ (drain_tracks_at_tick ticks_per_measure sound_length cursor_tick
          played_arr played_millis tracks tempo interval).2.2 := by
  intro tracks
  induction tracks with
  | nil =>
      intro tempo interval hn hi
      simp only [drain_tracks_at_tick]
      exact ⟨fun track hmem => absurd hmem (List.not_mem_nil track), hi⟩
  | cons track rest ih =>
      intro tempo interval hn hi
      simp only [drain_tracks_at_tick]
      have hhead := drain_track_at_tick_nonneg ticks_per_measure sound_length
        cursor_tick played_arr played_millis track.notes track.scan tempo
        interval (hn track (List.mem_cons_self _ _)) hi
      have hrest := ih
        (drain_track_at_tick ticks_per_measure sound_length cursor_tick
          played_arr played_millis track.notes track.scan tempo
          interval).2.2.1
        (drain_track_at_tick ticks_per_measure sound_length cursor_tick
          played_arr played_millis track.notes track.scan tempo
          interval).2.2.2
        (fun tr hm => hn tr (List.mem_cons_of_mem _ hm)) hhead.2
      refine ⟨?_, hrest.2⟩
      intro tr hm note hnote
      rcases List.mem_cons.mp hm with hm | hm
      · subst hm
        exact hhead.1 note hnote
      · exact hrest.1 tr hm note hnote

/-- The timeline sweep invariant after `k` ticks: the three arrays have
length `k`, the running interval tracks `240000 / ticksPerMeasure /
tempo` (with the `ℚ` convention `x / 0 = 0` covering the initial
tempo-0 state), every recorded interval matches its recorded tempo, each
recorded played-millis entry adds the previous entry's interval, and the
running scalars agree with the last recorded entries. -/
def timeline_invariant (ticks_per_measure k : ℕ) (st : TimelineState) :
    Prop :=
  st.tempos_per_tick.length = k ∧
  st.played_millis_per_tick.length = k ∧
  st.tick_interval_millis_per_tick.length = k ∧
  st.tick_interval_millis = 240000 / (ticks_per_measure : ℚ) / st.tempo ∧
  (∀ i, i < k → st.tick_interval_millis_per_tick.getD i 0 =
    240000 / (ticks_per_measure : ℚ) / st.tempos_per_tick.getD i 0) ∧
  (∀ i, i + 1 < k → st.played_millis_per_tick.getD (i + 1) 0 =
    st.played_millis_per_tick.getD i 0 +
      st.tick_interval_millis_per_tick.getD i 0) ∧
  (0 < k → st.played_millis = st.played_millis_per_tick.getD (k - 1) 0 ∧
    st.tick_interval_millis =
      st.tick_interval_millis_per_tick.getD (k - 1) 0)

/-- One sweep iteration preserves the invariant, advancing `k`. -/
theorem timeline_tick_step_invariant (ticks_per_measure : ℕ)
    (sound_length : ℕ → ℚ) (k cursor_tick : ℕ) (st : TimelineState)
    (h : timeline_invariant ticks_per_measure k st) :
    timeline_invariant ticks_per_measure (k + 1)
      (timeline_tick_step ticks_per_measure sound_length st cursor_tick) := by
  obtain ⟨hl1, hl2, hl3, hlink, hint, hadj, hlast⟩ := h
  have htempos : (timeline_tick_step ticks_per_measure sound_length st
      cursor_tick).tempos_per_tick =
      st.tempos_per_tick ++
        [(drain_tracks_at_tick ticks_per_measure sound_length cursor_tick
            st.played_millis_per_tick
            (st.played_millis + st.tick_interval_millis) st.tracks st.tempo
            st.tick_interval_millis).2.1] := rfl
  have hplayed : (timeline_tick_step ticks_per_measure sound_length st
      cursor_tick).played_millis_per_tick =
      st.played_millis_per_tick ++
        [st.played_millis + st.tick_interval_millis] := rfl
  have hints : (timeline_tick_step ticks_per_measure sound_length st
      cursor_tick).tick_interval_millis_per_tick =
      st.tick_interval_millis_per_tick ++
        [(drain_tracks_at_tick ticks_per_measure sound_length cursor_tick
            st.played_millis_per_tick
            (st.played_millis + st.tick_interval_millis) st.tracks st.tempo
            st.tick_interval_millis).2.2] := rfl
  have htempo : (timeline_tick_step ticks_per_measure sound_length st
      cursor_tick).tempo =
      (drain_tracks_at_tick ticks_per_measure sound_length cursor_tick
          st.played_millis_per_tick
          (st.played_millis + st.tick_interval_millis) st.tracks st.tempo
          st.tick_interval_millis).2.1 := rfl
  have hinterval : (timeline_tick_step ticks_per_measure sound_length st
      cursor_tick).tick_interval_millis =
      (drain_tracks_at_tick ticks_per_measure sound_length cursor_tick
          st.played_millis_per_tick
          (st.played_millis + st.tick_interval_millis) st.tracks st.tempo
          st.tick_interval_millis).2.2 := rfl
  have hpm : (timeline_tick_step ticks_per_measure sound_length st
      cursor_tick).played_millis =
      st.played_millis + st.tick_interval_millis := rfl
  have hdlink := drain_tracks_at_tick_link ticks_per_measure sound_length
    cursor_tick st.played_millis_per_tick
    (st.played_millis + st.tick_interval_millis) st.tracks st.tempo
    st.tick_interval_millis hlink
  refine ⟨?_, ?_, ?_, ?_, ?_, ?_, ?_⟩
  · rw [htempos, List.length_append, hl1]
    rfl
  · rw [hplayed, List.length_append, hl2]
    rfl
  · rw [hints, List.length_append, hl3]
    rfl
  · rw [hinterval, htempo]
    exact hdlink
  · intro i hi
    rw [hints, htempos]
    by_cases hik : i < k
    · rw [List.getD_append _ _ _ _ (by omega), List.getD_append _ _ _ _
        (by omega)]
      exact hint i hik
    · have hik' : i = k := by omega
      subst hik'
      rw [List.getD_append_right _ _ _ _ (by omega),
        List.getD_append_right _ _ _ _ (by omega), hl1, hl3]
      simp only [Nat.sub_self, List.getD_cons_zero]
      exact hdlink
  · intro i hi
    rw [hplayed, hints]
    by_cases hik : i + 1 < k
    · rw [List.getD_append _ _ _ _ (by omega), List.getD_append _ _ _ _
        (by omega), List.getD_append _ _ _ _ (by omega)]
      exact hadj i hik
    · have hik' : i + 1 = k := by omega
      have hk : 0 < k := by omega
      obtain ⟨hpmlast, hintlast⟩ := hlast hk
      rw [List.getD_append_right _ _ _ _ (by omega),
        List.getD_append _ _ _ _ (by omega),
        List.getD_append _ _ _ _ (by omega), hl2]
      simp only [hik', Nat.sub_self, List.getD_cons_zero]
      have hi' : i = k - 1 := by omega
      rw [hi', ← hpmlast, ← hintlast]
  · intro _
    constructor
    · rw [hpm, hplayed, List.getD_append_right _ _ _ _ (by omega), hl2]
      simp only [Nat.add_sub_cancel, Nat.sub_self, List.getD_cons_zero]
    · rw [hinterval, hints, List.getD_append_right _ _ _ _ (by omega), hl3]
      simp only [Nat.add_sub_cancel, Nat.sub_self, List.getD_cons_zero]

/-- Nonnegativity side invariant: when every tempo carried by the chart
is nonnegative, the running interval and all recorded intervals are
nonnegative. -/
def timeline_nonneg (st : TimelineState) : Prop :=
  (∀ track ∈ st.tracks, ∀ note ∈ track.notes, 0 ≤ note.params.tempoOf) ∧
  0 ≤ st.tick_interval_millis ∧
  (∀ x ∈ st.tick_interval_millis_per_tick, (0 : ℚ) ≤ x)

/-- One sweep iteration preserves nonnegativity. -/
theorem timeline_tick_step_nonneg (ticks_per_measure : ℕ)
    (sound_length : ℕ → ℚ) (cursor_tick : ℕ) (st : TimelineState)
    (h : timeline_nonneg st) :
    timeline_nonneg
      (timeline_tick_step ticks_per_measure sound_length st cursor_tick) := by
  obtain ⟨hn, hi, harr⟩ := h
  have hd := drain_tracks_at_tick_nonneg ticks_per_measure sound_length
    cursor_tick st.played_millis_per_tick
    (st.played_millis + st.tick_interval_millis) st.tracks st.tempo
    st.tick_interval_millis hn hi
  refine ⟨hd.1, hd.2, ?_⟩
  intro x hx
  have hx' : x ∈ st.tick_interval_millis_per_tick ++
      [(drain_tracks_at_tick ticks_per_measure sound_length cursor_tick
          st.played_millis_per_tick
          (st.played_millis + st.tick_interval_millis) st.tracks st.tempo
          st.tick_interval_millis).2.2] := hx
  rcases List.mem_append.mp hx' with hm | hm
  · exact harr x hm
  · rw [List.mem_singleton.mp hm]
    exact hd.2

/-- Unrolling the sweep one tick at the end. -/
theorem build_timeline_succ (ticks_per_measure : ℕ) (sound_length : ℕ → ℚ)
    (n : ℕ) (tracks : List (List PTFileNote)) :
    build_timeline ticks_per_measure sound_length (n + 1) tracks =
      timeline_tick_step ticks_per_measure sound_length
        (build_timeline ticks_per_measure sound_length n tracks) n := by
  simp [build_timeline, List.range_succ]

/-- The sweep invariant holds after the whole build. -/
theorem build_timeline_invariant (ticks_per_measure : ℕ)
    (sound_length : ℕ → ℚ) (tracks : List (List PTFileNote)) :
    ∀ total_ticks,
      timeline_invariant ticks_per_measure total_ticks
        (build_timeline ticks_per_measure sound_length total_ticks tracks) := by
  intro total_ticks
  induction total_ticks with
  | zero =>
      refine ⟨rfl, rfl, rfl, ?_, ?_, ?_, ?_⟩
      · show (0 : ℚ) = 240000 / (ticks_per_measure : ℚ) / 0
        rw [div_zero]
      · intro i hi
        omega
      · intro i hi
        omega
      · intro hk
        omega
  | succ n ih =>
      rw [build_timeline_succ]
      exact timeline_tick_step_invariant ticks_per_measure sound_length n n
        _ ih

/-- Nonnegativity holds after the whole build when every note tempo in
the chart is nonnegative. -/
theorem build_timeline_nonneg (ticks_per_measure : ℕ)
    (sound_length : ℕ → ℚ) (tracks : List (List PTFileNote))
    (hn : ∀ notes ∈ tracks, ∀ note ∈ notes, 0 ≤ note.params.tempoOf) :
    ∀ total_ticks,
      timeline_nonneg
        (build_timeline ticks_per_measure sound_length total_ticks tracks) := by
  intro total_ticks
  induction total_ticks with
  | zero =>
      refine ⟨?_, le_refl 0, ?_⟩
      · intro track htr note hnote
        simp only [build_timeline, List.range_zero, List.foldl_nil,
          timeline_init, List.mem_map] at htr
        obtain ⟨notes, hmem, rfl⟩ := htr
        exact hn notes hmem note hnote
      · intro x hx
        exact absurd hx (List.not_mem_nil x)
  | succ n ih =>
      rw [build_timeline_succ]
      exact timeline_tick_step_nonneg ticks_per_measure sound_length n _ ih

/-- C2 (amended): after the timeline build, the three per-tick arrays
have length `totalTicks`; for every tick
`tickIntervalMillisPerTick[t] = 240000 / ticksPerMeasure / tempoPerTick[t]`
(under the `ℚ` convention `x / 0 = 0` for the ticks before the first BPM
note); each entry of `playedMillisPerTick` adds the previous tick's
interval; and — provided every tempo carried by the chart's notes is
nonnegative, which the decoder does not enforce — `playedMillisPerTick`
is non-decreasing. -/
theorem C2_timeline_arrays (ticks_per_measure : ℕ) (sound_length : ℕ → ℚ)
    (total_ticks : ℕ) (tracks : List (List PTFileNote)) :
    (build_timeline ticks_per_measure sound_length total_ticks
        tracks).tempos_per_tick.length = total_ticks ∧
    (build_timeline ticks_per_measure sound_length total_ticks
        tracks).played_millis_per_tick.length = total_ticks ∧
    (build_timeline ticks_per_measure sound_length total_ticks
        tracks).tick_interval_millis_per_tick.length = total_ticks ∧
    (∀ t, t < total_ticks →
      (build_timeline ticks_per_measure sound_length total_ticks
          tracks).tick_interval_millis_per_tick.getD t 0 =
        240000 / (ticks_per_measure : ℚ) /
          (build_timeline ticks_per_measure sound_length total_ticks
            tracks).tempos_per_tick.getD t 0) ∧
    (∀ t, t + 1 < total_ticks →
      (build_timeline ticks_per_measure sound_length total_ticks
          tracks).played_millis_per_tick.getD (t + 1) 0 =
        (build_timeline ticks_per_measure sound_length total_ticks
            tracks).played_millis_per_tick.getD t 0 +
          (build_timeline ticks_per_measure sound_length total_ticks
            tracks).tick_interval_millis_per_tick.getD t 0) ∧
    ((∀ notes ∈ tracks, ∀ note ∈ notes, 0 ≤ note.params.tempoOf) →
      ∀ i j, i ≤ j → j < total_ticks →
        (build_timeline ticks_per_measure sound_length total_ticks
            tracks).played_millis_per_tick.getD i 0 ≤
          (build_timeline ticks_per_measure sound_length total_ticks
            tracks).played_millis_per_tick.getD j 0) := by
  obtain ⟨hl1, hl2, hl3, hlink, hint, hadj, hlast⟩ :=
    build_timeline_invariant ticks_per_measure sound_length tracks
      total_ticks
  refine ⟨hl1, hl2, hl3, hint, hadj, ?_⟩
  intro hn i j hij hjlt
  obtain ⟨hn', hi', harr⟩ :=
    build_timeline_nonneg ticks_per_measure sound_length tracks hn
      total_ticks
  have hstep : ∀ t, t + 1 < total_ticks →
      (build_timeline ticks_per_measure sound_length total_ticks
          tracks).played_millis_per_tick.getD t 0 ≤
        (build_timeline ticks_per_measure sound_length total_ticks
          tracks).played_millis_per_tick.getD (t + 1) 0 := by
    intro t ht
    rw [hadj t ht]
    have hmem : (build_timeline ticks_per_measure sound_length total_ticks
        tracks).tick_interval_millis_per_tick.getD t 0 ∈
        (build_timeline ticks_per_measure sound_length total_ticks
          tracks).tick_interval_millis_per_tick := by
      rw [List.getD_eq_getElem _ _ (by rw [hl3]; omega)]
      exact List.getElem_mem _
    have := harr _ hmem
    linarith
  have hmain : ∀ d i, i + d < total_ticks →
      (build_timeline ticks_per_measure sound_length total_ticks
          tracks).played_millis_per_tick.getD i 0 ≤
        (build_timeline ticks_per_measure sound_length total_ticks
          tracks).played_millis_per_tick.getD (i + d) 0 := by
    intro d
    induction d with
    | zero => intro i _; simp
    | succ m ihm =>
        intro i hi
        have h1 := ihm i (by omega)
        have h2 := hstep (i + m) (by omega)
        have : i + (m + 1) = i + m + 1 := by omega
        rw [this]
        exact le_trans h1 h2
  have := hmain (j - i) i (by omega)
  rwa [Nat.add_sub_cancel' hij] at this

/-- A chart whose only note is a BPM change with a negative tempo
(nothing in the decoder rejects a negative f32 tempo). -/
def negativeTempoTracks : List (List PTFileNote) :=
  [[{ position := 0, command_type := PTFileCommandType.BPM,
      params := PTFileNoteParams.bpm (-120) }]]

/-- A chart whose only note is a BPM change to 120 at tick 0. -/
def positiveTempoTracks : List (List PTFileNote) :=
  [[{ position := 0, command_type := PTFileCommandType.BPM,
      params := PTFileNoteParams.bpm 120 }]]

/-- Counterexample to C2 as stated: on a chart carrying a BPM note with
tempo -120 (ticksPerMeasure 480, 3 total ticks), `playedMillisPerTick`
strictly decreases from tick 0 to tick 1, so it is not non-decreasing
for every chart. -/
theorem C2_timeline_counterexample :
    (build_timeline 480 (fun _ => 0) 3
        negativeTempoTracks).played_millis_per_tick.getD 1 0 <
      (build_timeline 480 (fun _ => 0) 3
        negativeTempoTracks).played_millis_per_tick.getD 0 0 ∧
    ¬ (∀ i j : ℕ, i ≤ j → j < 3 →
        (build_timeline 480 (fun _ => 0) 3
            negativeTempoTracks).played_millis_per_tick.getD i 0 ≤
          (build_timeline 480 (fun _ => 0) 3
            negativeTempoTracks).played_millis_per_tick.getD j 0) := by
  obtain ⟨hl1, hl2, hl3, hlink, hint, hadj, hlast⟩ :=
    build_timeline_invariant 480 (fun _ => 0) negativeTempoTracks 3
  have htempo0 : (build_timeline 480 (fun _ => 0) 3
      negativeTempoTracks).tempos_per_tick.getD 0 0 = -120 := rfl
  have hadj0 := hadj 0 (by norm_num)
  simp only [Nat.zero_add] at hadj0
  have hint0 := hint 0 (by norm_num)
  rw [htempo0] at hint0
  have hneg : (build_timeline 480 (fun _ => 0) 3
      negativeTempoTracks).tick_interval_millis_per_tick.getD 0 0 < 0 := by
    rw [hint0]
    norm_num
  have hlt : (build_timeline 480 (fun _ => 0) 3
      negativeTempoTracks).played_millis_per_tick.getD 1 0 <
      (build_timeline 480 (fun _ => 0) 3
        negativeTempoTracks).played_millis_per_tick.getD 0 0 := by
    rw [hadj0]
    linarith
  refine ⟨hlt, ?_⟩
  intro hcon
  have := hcon 0 1 (by norm_num) (by norm_num)
  linarith

/-- Witness for C2 (amended): on the positive-tempo chart the arrays
have length 3 and the played-millis table is non-decreasing. -/
theorem C2_timeline_arrays_witness :
    (build_timeline 480 (fun _ => 0) 3
        positiveTempoTracks).played_millis_per_tick.length = 3 ∧
    (build_timeline 480 (fun _ => 0) 3
        positiveTempoTracks).played_millis_per_tick.getD 0 0 ≤
      (build_timeline 480 (fun _ => 0) 3
        positiveTempoTracks).played_millis_per_tick.getD 2 0 := by
  have h := C2_timeline_arrays 480 (fun _ => 0) 3 positiveTempoTracks
  refine ⟨h.2.1, ?_⟩
  refine h.2.2.2.2.2 ?_ 0 2 (by norm_num) (by norm_num)
  intro notes hm note hnote
  simp only [positiveTempoTracks, List.mem_singleton] at hm
  subst hm
  simp only [List.mem_singleton] at hnote
  subst hnote
  norm_num [PTFileNoteParams.tempoOf]
